import Mathlib

/-!
Verification development for the star-graph survival simulator
(`src/sim/burro_state.py`, `src/sim/travel.py`, `src/sim/visit.py`,
`src/model/graph.py`, `src/model/edge.py`, `src/planner/dijkstra_planner.py`,
`src/planner/beam_search.py`).

Shallow embedding conventions:
* Python floats are modelled as rationals (`ℚ`).
* The health string ("Excellent" | "Good" | "Bad" | "NearDeath" | "Dead")
  is the inductive `Health`; scenario data only ever uses these five values.
* Python dicts with optional keys become structures with `Option` fields;
  `d.get(k, default)` becomes `(field).getD default`.
* The Python `random.Random` object is modelled as a pure stream of values
  in `[0,1)` together with a position (`Rng`); `random()` reads one value and
  advances, `uniform a b` is `a + (b - a) * random()` (one draw), matching
  CPython.  The Mersenne-Twister stream belonging to `random.Random(seed)`
  is abstracted as a function parameter `seedStream : ℕ → ℕ → ℚ`.
* `if rules and ...` tests the truthiness (non-emptiness) of the rules dict;
  this is carried as the Boolean field `Rules.truthy`.
* The free-text log (`BurroState.log`, `add_log`) and the `meta` dict carry
  no information used by any claim and are omitted; the event lists returned
  by `simulate_travel` / `simulate_visit` are kept as structured `SimEvent`
  values mirroring the appended strings one for one.
-/

/-- Health tiers, ordered Excellent > Good > Bad > NearDeath > Dead
(the `order` list of `src/sim/visit.py`). -/
inductive Health where
  | excellent
  | good
  | bad
  | nearDeath
  | dead
deriving DecidableEq

/-- Index of a tier in the `order` list of `visit.py`. -/
def Health.idx : Health → ℕ
  | .excellent => 0
  | .good => 1
  | .bad => 2
  | .nearDeath => 3
  | .dead => 4

/-- Embedding of `_degrade_health` (`visit.py`): one step towards Dead,
fixed at Dead. -/
def degrade_health : Health → Health
  | .excellent => .good
  | .good => .bad
  | .bad => .nearDeath
  | .nearDeath => .dead
  | .dead => .dead

/-- Embedding of `_improve_health` (`visit.py`): one step towards Excellent,
fixed at Excellent only.  Note the source does NOT guard the Dead tier:
`_improve_health("Dead")` returns `"NearDeath"`. -/
def improve_health : Health → Health
  | .excellent => .excellent
  | .good => .excellent
  | .bad => .good
  | .nearDeath => .bad
  | .dead => .nearDeath

/-- Pure model of a bound `random.Random` instance: a stream of values in
`[0,1)` plus the current read position. -/
structure Rng where
  stream : ℕ → ℚ
  pos : ℕ

/-- One call of `random()`: read the current stream value, advance. -/
def Rng.random (r : Rng) : ℚ × Rng :=
  (r.stream r.pos, ⟨r.stream, r.pos + 1⟩)

/-- One call of `uniform(a, b)`: CPython computes `a + (b - a) * random()`,
consuming exactly one draw. -/
def Rng.uniform (r : Rng) (a b : ℚ) : ℚ × Rng :=
  let p := r.random
  (a + (b - a) * p.1, p.2)

/-- Python's binary `min` on floats, written out so it evaluates by kernel
reduction. -/
def pymin (a b : ℚ) : ℚ := if a ≤ b then a else b

/-- Python's binary `max` on floats, written out so it evaluates by kernel
reduction. -/
def pymax (a b : ℚ) : ℚ := if b ≤ a then a else b

/-- Outcome tag of the structured investigation record. -/
inductive OutcomeKind where
  | neutral
  | illness
  | successful
deriving DecidableEq

/-- The structured outcome record (`outcome_struct` in `simulate_visit`);
the constant `"type": "investigation"` key and the free-text note are
omitted. -/
structure OutcomeStruct where
  outcome : OutcomeKind
  life_delta : ℚ
  health_from : Health
  health_to : Health
  energy_delta : ℚ
deriving DecidableEq

/-- Structured counterparts of the strings appended to the `events` lists of
`simulate_travel` and `simulate_visit`, one constructor per `events.append`
site, carrying the interpolated quantities. -/
inductive SimEvent where
  | ate (kg gained : ℚ)
  | investigated (years energyDelta : ℚ)
  | lifeDelta (d : ℚ)
  | healthSet (h : Health)
  | investigateIllness (lifeLoss : ℚ) (hfrom hto : Health)
  | investigateSuccessful (lifeGain : ℚ) (hfrom hto : Health)
  | investigateNeutral
  | hypergiantBonus (energyGained : ℚ) (dup : ℤ)
  | diedDuringVisit
  | traveled (ly lifeLoss : ℚ)
  | travelEnergy (loss : ℚ)
  | diedDuringTravel
deriving DecidableEq

/-- The rules bundle.  Each field models one `rules.get(...)...get(key, d)`
chain of the sources (the nesting under "timeAndLife", "energy", "feeding",
"hypergiant", "investigation" is flattened).  `truthy` models the Python
truthiness (non-emptiness) of the rules dict, tested by
`apply_energy_delta`'s `if rules and ...`. -/
structure Rules where
  truthy : Bool
  maxFractionOfStayForEating : Option ℚ
  distanceLyToYearsFactor : Option ℚ
  useDistanceAsYearsOfLifeLoss : Option Bool
  p_illness : Option ℚ
  p_success : Option ℚ
  illness_life_loss_range : Option (ℚ × ℚ)
  success_life_gain_range : Option (ℚ × ℚ)
  success_improve_health_p : Option ℚ
  energyConsumptionPerLyPercent : Option ℚ
  energyLossPerInvestigationYearPercent : Option ℚ
  energyGainPerKgByHealthPercent : Health → Option ℚ
  applyEnergyCap100 : Option Bool
  eatOnlyIfEnergyBelowPercent : Option ℚ
  minKgPerEat : Option ℚ
  grassDuplicateMultiplier : Option ℤ
  rng_seed : Option ℕ

/-- Embedding of the `BurroState` dataclass (`src/sim/burro_state.py`).
`visited` is a finite set of node ids; the string log and the `meta` dict are
omitted (no claim reads them). -/
structure BurroState where
  node : Option ℕ
  life_years_left : ℚ
  health : Health
  energy_pct : ℚ
  grass_kg : ℚ
  age_years : ℚ
  visited : Finset ℕ
  last_event : Option OutcomeStruct
  event_log : List OutcomeStruct
  rng : Option Rng

/-- Embedding of `BurroState.clone`: a deep copy that keeps the RNG reference
shallow.  In the pure embedding states are values, so a clone is the value
itself. -/
def BurroState.clone (s : BurroState) : BurroState := s

/-- Embedding of `BurroState.is_dead`. -/
def BurroState.is_dead (s : BurroState) : Bool :=
  decide (s.health = Health.dead) || decide (s.life_years_left ≤ 0) ||
    decide (s.energy_pct ≤ 0)

/-- Embedding of `BurroState.apply_energy_delta`: add the delta, cap at 100
only when the rules dict is truthy and `applyEnergyCap100` (default True)
holds, then floor at 0 unconditionally. -/
def BurroState.apply_energy_delta (s : BurroState) (delta_pct : ℚ)
    (rules : Rules) : BurroState :=
  let e1 := s.energy_pct + delta_pct
  let e2 := if rules.truthy && rules.applyEnergyCap100.getD true
            then pymin 100 e1 else e1
  let e3 := if e2 < 0 then 0 else e2
  { s with energy_pct := e3 }

/-- Embedding of `BurroState.apply_life_delta`: add the delta, floor at 0. -/
def BurroState.apply_life_delta (s : BurroState) (delta_years : ℚ) :
    BurroState :=
  let l := s.life_years_left + delta_years
  { s with life_years_left := if l < 0 then 0 else l }

/-- Embedding of `BurroState.get_rng`.  Returns the generator to use plus a
flag telling whether it is (or becomes) bound to the state: the state's own
rng, else a fresh `Random(rules.rng_seed)` (bound: the source stores it on
the state), else a fresh unseeded `Random()` (not stored; its stream is
irrelevant to every claim and is modelled as the zero stream). -/
def BurroState.get_rng (seedStream : ℕ → ℕ → ℚ) (s : BurroState)
    (rules : Rules) : Rng × Bool :=
  match s.rng with
  | some r => (r, true)
  | none =>
    match rules.rng_seed with
    | some seed => (⟨seedStream seed, 0⟩, true)
    | none => (⟨fun _ => 0, 0⟩, false)

/-- Input block for `build_initial_burro_state_from_json`; the duplicated
snake-case key aliases of the source collapse into single optional fields. -/
structure InitialJson where
  initialEnergyPercent : Option ℚ
  healthState : Option Health
  grassKg : Option ℚ
  currentAgeYears : Option ℚ
  deathAgeYears : Option ℚ

/-- Embedding of `BurroState.build_initial_burro_state_from_json`. -/
def build_initial_burro_state_from_json (init : Option InitialJson) :
    BurroState :=
  let i := init.getD ⟨none, none, none, none, none⟩
  let energy := i.initialEnergyPercent.getD 100
  let health := i.healthState.getD Health.excellent
  let grass := i.grassKg.getD 0
  let current_age := i.currentAgeYears.getD 0
  let death_age := i.deathAgeYears.getD 100
  let life_left := pymax 0 (death_age - current_age)
  { node := none
    life_years_left := life_left
    health := health
    energy_pct := energy
    grass_kg := grass
    age_years := current_age
    visited := ∅
    last_event := none
    event_log := []
    rng := none }

/-- Attributes of an edge as seen by `simulate_travel` (the `edge_attrs`
dict). -/
structure EdgeAttrs where
  distanceLy : Option ℚ
  ly : Option ℚ
  yearsCost : Option ℚ
deriving DecidableEq

/-- Embedding of `simulate_travel` (`src/sim/travel.py`). -/
def simulate_travel (state : BurroState) (edge_attrs : EdgeAttrs)
    (rules : Rules) : BurroState × List SimEvent :=
  let s := state.clone
  let distance_ly := (edge_attrs.distanceLy.orElse fun _ => edge_attrs.ly).getD 0
  let taf := rules.distanceLyToYearsFactor.getD (1/20)
  let use_dist := rules.useDistanceAsYearsOfLifeLoss.getD true
  let years_loss := if use_dist then distance_ly * taf
                    else edge_attrs.yearsCost.getD 0
  let s := s.apply_life_delta (-years_loss)
  let ev1 : List SimEvent := [.traveled distance_ly (-years_loss)]
  let eco_pct_per_ly := rules.energyConsumptionPerLyPercent.getD 0
  let energy_loss := distance_ly * eco_pct_per_ly
  let s := s.apply_energy_delta (-energy_loss) rules
  let ev2 : List SimEvent := ev1 ++ [.travelEnergy (-energy_loss)]
  if s.life_years_left ≤ 0 then
    ({ s with health := Health.dead }, ev2 ++ [.diedDuringTravel])
  else
    (s, ev2)

/-- Optional fixed node effects (`star_attrs["effects"]` /
`user_overrides["effects"]`). -/
structure Effects where
  life_delta_years : Option ℚ
  health_delta : Option Health
deriving DecidableEq

/-- Attributes of a star node as consumed by `simulate_visit` (the
`star_attrs` dict). -/
structure StarAttrs where
  investigation_years : Option ℚ
  time_per_kg_years : Option ℚ
  time_to_consume_kg_years : Option ℚ
  invest_energy_per_year_pct : Option ℚ
  effects : Effects
  hypergiant : Bool

/-- The optional `user_overrides` dict of `simulate_visit`. -/
structure Overrides where
  investigation_years : Option ℚ
  effects : Effects

/-- The investigation years of a visit: override wins over the star
attribute, default 0 (`visit.py` line 40). -/
def visit_inv_years (star_attrs : StarAttrs) (uo : Overrides) : ℚ :=
  ((uo.investigation_years).orElse fun _ => star_attrs.investigation_years).getD 0

/-- The effective feeding time per kg of a star: `time_per_kg_years`, alias
`time_to_consume_kg_years`, default 1.0 (`visit.py` line 45). -/
def feed_time_per_kg (star_attrs : StarAttrs) : ℚ :=
  ((star_attrs.time_per_kg_years).orElse
    fun _ => star_attrs.time_to_consume_kg_years).getD 1

/-- The time-derived kg budget of a visit, `max_kg_by_time` of `visit.py`:
the eating time budget (`inv_years * maxFractionOfStayForEating`) divided by
the per-kg feeding time.  Meaningful only when `feed_time_per_kg` is
positive — the source uses `float('inf')` otherwise. -/
def feed_kg_budget (star_attrs : StarAttrs) (rules : Rules)
    (inv_years : ℚ) : ℚ :=
  inv_years * rules.maxFractionOfStayForEating.getD (1/2) /
    feed_time_per_kg star_attrs

/-- Embedding of the EATING block of `simulate_visit` (`visit.py` lines
42-74).  `max_kg_by_time` is `float('inf')` when `time_per_kg_years ≤ 0`;
that infinite case is folded: `inf > 0` holds, `inf < min_kg` fails and
`min(inf, grass)` is the grass stock. -/
def visitFeeding (s : BurroState) (star_attrs : StarAttrs) (rules : Rules)
    (inv_years : ℚ) : BurroState × List SimEvent :=
  let time_per_kg_years := feed_time_per_kg star_attrs
  let eat_threshold := rules.eatOnlyIfEnergyBelowPercent.getD 50
  let min_kg := rules.minKgPerEat.getD (1/10)
  if s.energy_pct < eat_threshold ∧ 0 < s.grass_kg ∧
      (if 0 < time_per_kg_years
       then 0 < feed_kg_budget star_attrs rules inv_years else True) then
    let desired :=
      if 0 < time_per_kg_years then
        let b := feed_kg_budget star_attrs rules inv_years
        pymin (if b < min_kg then min_kg else b) s.grass_kg
      else
        s.grass_kg
    if 0 < desired then
      let gain_per_kg := (rules.energyGainPerKgByHealthPercent s.health).getD
        ((rules.energyGainPerKgByHealthPercent Health.good).getD 3)
      let old_energy := s.energy_pct
      let s1 := { s with grass_kg := pymax 0 (s.grass_kg - desired) }
      let s2 := s1.apply_energy_delta (gain_per_kg * desired) rules
      (s2, [.ate desired (s2.energy_pct - old_energy)])
    else (s, [])
  else (s, [])

/-- Embedding of the INVESTIGATION ENERGY CONSUMPTION block (`visit.py`
lines 76-85).  Also returns the energy level before the deduction
(the `old_energy` captured at line 82, later used for the outcome record's
`energy_delta`). -/
def visitInvestCost (s : BurroState) (star_attrs : StarAttrs) (rules : Rules)
    (inv_years : ℚ) : BurroState × List SimEvent × ℚ :=
  let invest_energy_pct_per_year :=
    ((star_attrs.invest_energy_per_year_pct).orElse
      fun _ => rules.energyLossPerInvestigationYearPercent).getD 0
  let total_invest_loss := inv_years * invest_energy_pct_per_year
  let old_energy := s.energy_pct
  let s1 := s.apply_energy_delta (-total_invest_loss) rules
  (s1, [.investigated inv_years (-total_invest_loss)], old_energy)

/-- Embedding of the EFFECTS block (`visit.py` lines 87-100): dict-update
semantics give the override key precedence over the star's; `life_delta`
applies through `apply_life_delta` when non-zero; a truthy `health_delta`
overwrites the health tier unconditionally. -/
def visitEffects (s : BurroState) (star_attrs : StarAttrs) (uo : Overrides) :
    BurroState × List SimEvent :=
  let life_delta :=
    ((uo.effects.life_delta_years).orElse
      fun _ => star_attrs.effects.life_delta_years).getD 0
  let health_delta :=
    (uo.effects.health_delta).orElse fun _ => star_attrs.effects.health_delta
  let p := if life_delta ≠ 0
           then (s.apply_life_delta life_delta, [SimEvent.lifeDelta life_delta])
           else (s, [])
  match health_delta with
  | some h => ({ p.1 with health := h }, p.2 ++ [.healthSet h])
  | none => (p.1, p.2)

/-- Embedding of the investigation-outcome block (`visit.py` lines 102-161).
One uniform draw `r` is taken unconditionally; illness costs one further
`uniform` draw; success costs one further `uniform` draw plus one `random`
draw when `success_improve_health_p > 0`.  The structured record is stored
as `last_event` and appended to `event_log` on every call; the advanced
generator is written back to the state exactly when it is bound. -/
def visitOutcome (seedStream : ℕ → ℕ → ℚ) (s : BurroState) (rules : Rules)
    (inv_years : ℚ) (old_energy : ℚ) : BurroState × List SimEvent :=
  let p_ill := rules.p_illness.getD 0
  let p_succ := rules.p_success.getD 0
  let ill_range := rules.illness_life_loss_range.getD (1, 3)
  let succ_range := rules.success_life_gain_range.getD (0, 1)
  let succ_improve_p := rules.success_improve_health_p.getD 0
  let rb := s.get_rng seedStream rules
  let bound := rb.2
  let rp := rb.1.random
  let r := rp.1
  let rng1 := rp.2
  let base : OutcomeStruct :=
    { outcome := .neutral
      life_delta := 0
      health_from := s.health
      health_to := s.health
      energy_delta := s.energy_pct - old_energy }
  let res : BurroState × OutcomeStruct × List SimEvent × Rng :=
    if 0 < inv_years ∧ (0 < p_ill ∨ 0 < p_succ) then
      if r < p_ill then
        let up := rng1.uniform ill_range.1 ill_range.2
        let life_loss := -up.1
        let old_health := s.health
        let new_health := degrade_health old_health
        let s1 := s.apply_life_delta life_loss
        ({ s1 with health := new_health },
         { base with outcome := .illness, life_delta := life_loss,
                     health_from := old_health, health_to := new_health },
         [.investigateIllness life_loss old_health new_health], up.2)
      else if r < p_ill + p_succ then
        let up := rng1.uniform succ_range.1 succ_range.2
        let life_gain := up.1
        let old_health := s.health
        let s1 := s.apply_life_delta life_gain
        let imp : BurroState × Rng :=
          if 0 < succ_improve_p then
            let r2p := up.2.random
            if r2p.1 < succ_improve_p then
              let new_health := improve_health old_health
              if new_health ≠ old_health
              then ({ s1 with health := new_health }, r2p.2)
              else (s1, r2p.2)
            else (s1, r2p.2)
          else (s1, up.2)
        (imp.1,
         { base with outcome := .successful, life_delta := life_gain,
                     health_from := old_health, health_to := imp.1.health },
         [.investigateSuccessful life_gain old_health imp.1.health], imp.2)
      else
        (s, base, [.investigateNeutral], rng1)
    else
      (s, base, [], rng1)
  let s2 := res.1
  let struct := res.2.1
  ({ s2 with last_event := some struct
             event_log := s2.event_log ++ [struct]
             rng := if bound then some res.2.2.2 else s2.rng },
   res.2.2.1)

/-- Embedding of the hypergiant block (`visit.py` lines 163-174): a relative
recharge of a hard-coded 50% of the current energy through
`apply_energy_delta`, then the grass stock multiplied by the configured
duplication factor (default 2). -/
def visitHypergiant (s : BurroState) (star_attrs : StarAttrs)
    (rules : Rules) : BurroState × List SimEvent :=
  if star_attrs.hypergiant then
    let relative_recharge_fraction : ℚ := 1/2
    let old_e := s.energy_pct
    let s1 := s.apply_energy_delta (old_e * relative_recharge_fraction) rules
    let dup := rules.grassDuplicateMultiplier.getD 2
    let s2 := { s1 with grass_kg := s1.grass_kg * (dup : ℚ) }
    (s2, [.hypergiantBonus (s1.energy_pct - old_e) dup])
  else (s, [])

/-- Embedding of the mark-visited block (`visit.py` lines 176-179).  The
source adds `s.node` to the visited set; every state that reaches
`simulate_visit` carries a concrete node id, so the `None` position is left
untouched here. -/
def visitMarkVisited (s : BurroState) : BurroState :=
  { s with visited := match s.node with
                      | some n => insert n s.visited
                      | none => s.visited }

/-- Embedding of the death check closing `simulate_visit` (`visit.py` lines
181-185). -/
def visitDeathCheck (s : BurroState) : BurroState × List SimEvent :=
  if s.energy_pct ≤ 0 ∨ s.life_years_left ≤ 0 then
    ({ s with health := Health.dead }, [.diedDuringVisit])
  else (s, [])

/-- All of `simulate_visit` up to (excluding) the hypergiant block: clone,
feeding, investigation energy cost, fixed effects, probabilistic outcome. -/
def visitPreHyper (seedStream : ℕ → ℕ → ℚ) (state : BurroState)
    (star_attrs : StarAttrs) (rules : Rules)
    (user_overrides : Option Overrides) : BurroState × List SimEvent :=
  let s := state.clone
  let uo := user_overrides.getD ⟨none, ⟨none, none⟩⟩
  let inv_years := visit_inv_years star_attrs uo
  let f := visitFeeding s star_attrs rules inv_years
  let ic := visitInvestCost f.1 star_attrs rules inv_years
  let ef := visitEffects ic.1 star_attrs uo
  let ou := visitOutcome seedStream ef.1 rules inv_years ic.2.2
  (ou.1, f.2 ++ ic.2.1 ++ ef.2 ++ ou.2)

/-- Embedding of `simulate_visit` (`src/sim/visit.py`): the pre-hypergiant
phases followed by the hypergiant bonus, marking the node visited and the
death check. -/
def simulate_visit (seedStream : ℕ → ℕ → ℚ) (state : BurroState)
    (star_attrs : StarAttrs) (rules : Rules)
    (user_overrides : Option Overrides) : BurroState × List SimEvent :=
  let ph := visitPreHyper seedStream state star_attrs rules user_overrides
  let hy := visitHypergiant ph.1 star_attrs rules
  let sv := visitMarkVisited hy.1
  let dc := visitDeathCheck sv
  (dc.1, ph.2 ++ hy.2 ++ dc.2)

/-- One step of a travel/visit chain, carrying its own edge or node
attributes, rules bundle and (for visits) user overrides. -/
inductive SimStep where
  | travel (e : EdgeAttrs) (rules : Rules)
  | visit (a : StarAttrs) (rules : Rules) (uo : Option Overrides)

/-- The rules bundle of a step. -/
def SimStep.rules : SimStep → Rules
  | .travel _ r => r
  | .visit _ r _ => r

/-- Run a finite chain of travel/visit transitions, threading the state. -/
def runChain (seedStream : ℕ → ℕ → ℚ) : List SimStep → BurroState → BurroState
  | [], s => s
  | .travel e r :: rest, s => runChain seedStream rest (simulate_travel s e r).1
  | .visit a r uo :: rest, s =>
      runChain seedStream rest (simulate_visit seedStream s a r uo).1

/-- The numeric contract of the spec: energy in [0,100], life and grass
non-negative. -/
def StateInv (s : BurroState) : Prop :=
  0 ≤ s.energy_pct ∧ s.energy_pct ≤ 100 ∧ 0 ≤ s.life_years_left ∧
    0 ≤ s.grass_kg

/-- Rules under which the numeric contract is preserved: a truthy rules dict
with the 100-point energy cap not disabled and a non-negative grass
duplication factor. -/
def RulesOK (r : Rules) : Prop :=
  r.truthy = true ∧ r.applyEnergyCap100.getD true = true ∧
    0 ≤ r.grassDuplicateMultiplier.getD 2

/-- Embedding of the `Edge` dataclass of `src/model/edge.py` (the
click-helper geometry of that file is irrelevant to the claims). -/
structure EdgeM where
  u : ℕ
  v : ℕ
  distanceLy : ℚ
  yearsCost : ℚ
  blocked : Bool
deriving DecidableEq

/-- Embedding of `Edge.ToggleBlocked`: set the blocked flag to the given
value. -/
def EdgeM.ToggleBlocked (e : EdgeM) (value : Bool) : EdgeM :=
  { e with blocked := value }

/-- Embedding of `GraphModel._edgeKey`: canonical unordered key. -/
def edgeKey (u v : ℕ) : ℕ × ℕ :=
  if u ≤ v then (u, v) else (v, u)

/-- Embedding of the edge dictionary of `GraphModel` (`src/model/graph.py`):
an insertion-ordered association list keyed by canonical keys.  The star
dictionary and the cached NetworkX view do not participate in any claim. -/
structure GraphModel where
  edges : List ((ℕ × ℕ) × EdgeM)

/-- Embedding of `GraphModel.GetEdge`: dictionary lookup at the canonical
key. -/
def GraphModel.GetEdge (g : GraphModel) (u v : ℕ) : Option EdgeM :=
  (g.edges.find? fun kv => decide (kv.1 = edgeKey u v)).map Prod.snd

/-- Embedding of `GraphModel.ToggleEdgeBlocked`: `none` models the raised
`KeyError` for a missing edge; otherwise the flag is flipped in place and the
new flag value is returned with the updated graph. -/
def GraphModel.ToggleEdgeBlocked (g : GraphModel) (u v : ℕ) :
    Option (Bool × GraphModel) :=
  match g.GetEdge u v with
  | none => none
  | some e =>
    let new_state := !e.blocked
    some (new_state,
      ⟨g.edges.map fun kv =>
        if kv.1 = edgeKey u v then (kv.1, kv.2.ToggleBlocked new_state)
        else kv⟩)

/-- Membership of the (u,v) edge in the filtered blocked-edges-removed view,
as materialised by `GraphModel.ComputeShortestPath` (`graph.py` lines
176-183): present and not blocked. -/
def GraphModel.filteredMem (g : GraphModel) (u v : ℕ) : Bool :=
  match g.GetEdge u v with
  | some e => !e.blocked
  | none => false

/-- The weighted undirected graph handed to `shortest_path_dijkstra`
(`src/planner/dijkstra_planner.py`): node list plus edges carrying the value
of the selected weight attribute. -/
structure WGraph where
  nodes : List ℕ
  edges : List (ℕ × ℕ × ℚ)

/-- Weighted adjacency of a node: both directions of the undirected edge
list, in insertion order. -/
def WGraph.adj (g : WGraph) (n : ℕ) : List (ℕ × ℚ) :=
  g.edges.filterMap fun e =>
    if e.1 = n then some (e.2.1, e.2.2)
    else if e.2.1 = n then some (e.1, e.2.2)
    else none

/-- Keep the better (smaller-distance) of two optional labels; used to fold
the relaxation candidates. -/
def optMin (a b : Option (ℚ × List ℕ)) : Option (ℚ × List ℕ) :=
  match a, b with
  | none, b => b
  | some x, none => some x
  | some x, some y => if y.1 < x.1 then some y else some x

/-- Fold a candidate list down to its best label. -/
def pickMin (l : List (Option (ℚ × List ℕ))) : Option (ℚ × List ℕ) :=
  l.foldl optMin none

/-- One relaxation round at node `n`: keep the current label or extend a
neighbour's label across the connecting edge. -/
def relaxStep (g : WGraph) (d : ℕ → Option (ℚ × List ℕ)) (n : ℕ) :
    Option (ℚ × List ℕ) :=
  pickMin (d n ::
    (g.adj n).map fun mw => (d mw.1).map fun p => (p.1 + mw.2, p.2 ++ [n]))

/-- Iterated relaxation: `k` rounds from the source labelling. -/
def iterRelax (g : WGraph) (source : ℕ) : ℕ → ℕ → Option (ℚ × List ℕ)
  | 0 => fun n => if n = source then some (0, [source]) else none
  | k + 1 => fun n => relaxStep g (iterRelax g source k) n

/-- One expansion round of the reachable set. -/
def reachStep (g : WGraph) (r : ℕ → Bool) (n : ℕ) : Bool :=
  r n || (g.adj n).any fun mw => r mw.1

/-- Nodes reachable from `source` along at most `k` edges (computed
closure). -/
def reachableK (g : WGraph) (source : ℕ) : ℕ → ℕ → Bool
  | 0 => fun n => decide (n = source)
  | k + 1 => fun n => reachStep g (reachableK g source k) n

/-- Valid weighted path in `g` from `source` to a node: starts as the
singleton `[source]` of weight 0 and grows one adjacent edge at a time,
accumulating the edge weights (`(m, w) ∈ g.adj n` states that `m` and `n`
are joined by an edge of weight `w`). -/
inductive ValidPath (g : WGraph) (source : ℕ) : ℕ → List ℕ → ℚ → Prop where
  | base : ValidPath g source source [source] 0
  | step {m n : ℕ} {p : List ℕ} {d w : ℚ} :
      ValidPath g source m p d → (m, w) ∈ g.adj n →
      ValidPath g source n (p ++ [n]) (d + w)

/-- Embedding of `shortest_path_dijkstra` (`src/planner/dijkstra_planner.py`)
over the `networkx` weighted shortest-path routine it wraps.  Modelled from
the library behaviour the source relies on: a missing endpoint raises
`NodeNotFound` and a disconnected pair raises `NetworkXNoPath`, both of which
the source catches and collapses to `None`; identical endpoints short-circuit
to the zero-weight singleton path.  The search itself is computed by
node-count-many relaxation rounds, which labels exactly the reachable
nodes. -/
def shortest_path_dijkstra (g : WGraph) (source target : ℕ) :
    Option (List ℕ × ℚ) :=
  if source ∈ g.nodes then
    if target ∈ g.nodes then
      if source = target then some ([source], 0)
      else
        match iterRelax g source g.nodes.length target with
        | none => none
        | some dp => some (dp.2, dp.1)
    else none
  else none

/-- The NetworkX graph handed to `beam_search`: insertion-ordered node list
with star attributes and insertion-ordered undirected edge list with edge
attributes. -/
structure NxGraph where
  nodes : List (ℕ × StarAttrs)
  edges : List ((ℕ × ℕ) × EdgeAttrs)

/-- Neighbour list of `u` in adjacency insertion order
(`Gnx.neighbors(u)`). -/
def NxGraph.neighbors (g : NxGraph) (u : ℕ) : List ℕ :=
  g.edges.filterMap fun e =>
    if e.1.1 = u then some e.1.2
    else if e.1.2 = u then some e.1.1
    else none

/-- Edge attribute lookup (`Gnx.get_edge_data(u, v)`), either direction. -/
def NxGraph.edge_data (g : NxGraph) (u v : ℕ) : Option EdgeAttrs :=
  (g.edges.find? fun e =>
    decide (e.1 = (u, v)) || decide (e.1 = (v, u))).map Prod.snd

/-- Node attribute lookup (`Gnx.nodes[v]`). -/
def NxGraph.star (g : NxGraph) (v : ℕ) : Option StarAttrs :=
  (g.nodes.find? fun e => decide (e.1 = v)).map Prod.snd

/-- Star attributes with every optional key absent. -/
def emptyStarAttrs : StarAttrs :=
  ⟨none, none, none, none, ⟨none, none⟩, false⟩

/-- Edge attributes with every optional key absent (the `or {}` fallback of
`get_edge_data`). -/
def emptyEdgeAttrs : EdgeAttrs := ⟨none, none, none⟩

/-- Round to the nearest integer, halves to even — Python's `round`. -/
def roundHalfEven (x : ℚ) : ℤ :=
  let n := ⌊x⌋
  let f := x - n
  if 1/2 < f then n + 1
  else if f < 1/2 then n
  else if 2 ∣ n then n else n + 1

/-- Python's `round(x, 2)` on the idealised (exact) rational value. -/
def roundQ2 (x : ℚ) : ℚ :=
  (roundHalfEven (x * 100) : ℚ) / 100

/-- Embedding of the `_StateKey` deduplication fingerprint of
`src/planner/beam_search.py`; the sorted visited tuple is represented by the
visited set itself (equal sorted tuples of naturals correspond exactly to
equal finite sets). -/
structure StateKey where
  node : Option ℕ
  visited : Finset ℕ
  life_rounded : ℚ
  energy_rounded : ℚ
  grass_rounded : ℚ
deriving DecidableEq

/-- Embedding of `_make_key`. -/
def make_key (s : BurroState) : StateKey :=
  { node := s.node
    visited := s.visited
    life_rounded := roundQ2 s.life_years_left
    energy_rounded := roundQ2 s.energy_pct
    grass_rounded := roundQ2 s.grass_kg }

/-- Embedding of `_score_for_sort`: visited count, life left, energy. -/
def score_for_sort (s : BurroState) : ℕ × ℚ × ℚ :=
  (s.visited.card, s.life_years_left, s.energy_pct)

/-- Strict lexicographic comparison of score tuples — Python's `>` on
`(int, float, float)` tuples, flipped. -/
def scoreLt (a b : ℕ × ℚ × ℚ) : Bool :=
  decide (a.1 < b.1) ||
    (decide (a.1 = b.1) &&
      (decide (a.2.1 < b.2.1) ||
        (decide (a.2.1 = b.2.1) && decide (a.2.2 < b.2.2))))

/-- Embedding of `_is_dead` of `beam_search.py`: life exhausted or health
literally Dead; energy alone does not count there. -/
def beam_is_dead (s : BurroState) : Bool :=
  decide (s.life_years_left ≤ 0) || decide (s.health = Health.dead)

/-- One beam entry: the Python tuple `(score, order_index, state, path)`. -/
structure BeamElem where
  score : ℕ × ℚ × ℚ
  ord : ℕ
  state : BurroState
  path : List ℕ

/-- Stop reasons reported in `meta["reason_stop"]`. -/
inductive StopReason where
  | start_dead
  | no_candidates
  | all_dead
  | max_depth_reached
deriving DecidableEq

/-- The `meta` dict returned by `beam_search`; `expansions` and
`depth_reached` are `Option` because the `start_dead` early return omits
those keys. -/
structure BeamMeta where
  reason_stop : StopReason
  final_state : BurroState
  visited_count : ℕ
  expansions : Option ℕ
  depth_reached : Option ℕ

/-- Embedding of `_clone_state` of `beam_search.py` (dataclass `replace`
plus a shallow copy of the visited set): the identity on state values. -/
def beam_clone_state (s : BurroState) : BurroState := s

/-- Expand one beam element towards one neighbour `v`, threading the
candidate accumulator, the expansion counter and the shared generator (the
clones alias one `random.Random` object, so its position is global across
the whole search whenever the start state carried a bound generator). -/
def expandNeighbor (seedStream : ℕ → ℕ → ℚ) (G : NxGraph) (rules : Rules)
    (avoid_revisit : Bool) (el : BeamElem)
    (acc : List BeamElem × ℕ × Option Rng) (v : ℕ) :
    List BeamElem × ℕ × Option Rng :=
  if avoid_revisit && decide (v ∈ el.state.visited) then acc
  else
    let e := (G.edge_data (el.state.node.getD 0) v).getD emptyEdgeAttrs
    let state_copy := beam_clone_state el.state
    let tr := simulate_travel state_copy e rules
    let expansions := acc.2.1 + 1
    if beam_is_dead tr.1 then
      (acc.1 ++ [⟨score_for_sort tr.1, expansions, tr.1, el.path ++ [v]⟩],
       expansions, acc.2.2)
    else
      let s_at_v := { tr.1 with node := some v }
      let star_attrs := (G.star v).getD emptyStarAttrs
      let s_in := match acc.2.2 with
                  | some r => { s_at_v with rng := some r }
                  | none => s_at_v
      let vi := simulate_visit seedStream s_in star_attrs rules none
      let s_vis := { vi.1 with
                     visited := vi.1.visited ∪ el.state.visited ∪ {v} }
      let gRng := match acc.2.2 with
                  | some _ => vi.1.rng
                  | none => acc.2.2
      (acc.1 ++ [⟨score_for_sort s_vis, expansions, s_vis, el.path ++ [v]⟩],
       expansions, gRng)

/-- Expand every neighbour of one beam element in adjacency order. -/
def expandElem (seedStream : ℕ → ℕ → ℚ) (G : NxGraph) (rules : Rules)
    (avoid_revisit : Bool) (acc : List BeamElem × ℕ × Option Rng)
    (el : BeamElem) : List BeamElem × ℕ × Option Rng :=
  (G.neighbors (el.state.node.getD 0)).foldl
    (expandNeighbor seedStream G rules avoid_revisit el) acc

/-- Insert a candidate into the insertion-ordered deduplication dictionary,
replacing an existing entry for the same fingerprint only when the new score
tuple is strictly greater. -/
def dedupInsert (c : BeamElem) :
    List (StateKey × BeamElem) → List (StateKey × BeamElem)
  | [] => [(make_key c.state, c)]
  | (k, e) :: rest =>
    if k = make_key c.state then
      if scoreLt e.score c.score then (k, c) :: rest else (k, e) :: rest
    else (k, e) :: dedupInsert c rest

/-- Stable insertion for a descending sort by score: a new element passes
over strictly smaller entries only, so candidates with equal scores keep
their insertion order — the behaviour of Python's stable `list.sort` with
`reverse=True`. -/
def insertDescBy (x : BeamElem) : List BeamElem → List BeamElem
  | [] => [x]
  | y :: ys => if scoreLt y.score x.score then x :: y :: ys
               else y :: insertDescBy x ys

/-- Stable descending sort by score tuple. -/
def sortDescBy (l : List BeamElem) : List BeamElem :=
  l.foldl (fun acc x => insertDescBy x acc) []

/-- Embedding of the best-solution update over the fresh beam
(`beam_search.py` lines 149-154). -/
def updateBest (acc : BurroState × List ℕ × ℕ) (el : BeamElem) :
    BurroState × List ℕ × ℕ :=
  let visited_count := el.state.visited.card
  if acc.2.2 < visited_count ∨
      (visited_count = acc.2.2 ∧
        (acc.1.life_years_left < el.state.life_years_left ∨
          acc.1.energy_pct < el.state.energy_pct)) then
    (el.state, el.path, visited_count)
  else acc

/-- The `for depth in range(1, max_depth + 1)` loop of `beam_search`,
structurally recursive on the remaining rounds.  Arguments after the fuel:
the depth number of the coming round, the beam, the best state/path/visited
triple, the expansion counter, the shared generator and the last
`depth_reached` value. -/
def beamLoop (seedStream : ℕ → ℕ → ℚ) (G : NxGraph) (rules : Rules)
    (beam_width : ℕ) (avoid_revisit : Bool) :
    ℕ → ℕ → List BeamElem → BurroState × List ℕ × ℕ → ℕ → Option Rng → ℕ →
    List ℕ × BeamMeta
  | 0, _, _, best, expansions, _, depth_reached =>
    (best.2.1, ⟨.max_depth_reached, best.1, best.2.2, some expansions,
      some depth_reached⟩)
  | fuel + 1, depth, beam, best, expansions, gRng, _ =>
    let ex := beam.foldl (expandElem seedStream G rules avoid_revisit)
      ([], expansions, gRng)
    if ex.1.isEmpty then
      (best.2.1, ⟨.no_candidates, best.1, best.2.2, some ex.2.1, some depth⟩)
    else
      let uniq := (ex.1.foldl (fun m c => dedupInsert c m) []).map Prod.snd
      let newBeam := (sortDescBy uniq).take beam_width
      let best2 := newBeam.foldl updateBest best
      if newBeam.all fun el => beam_is_dead el.state then
        (best2.2.1, ⟨.all_dead, best2.1, best2.2.2, some ex.2.1, some depth⟩)
      else
        beamLoop seedStream G rules beam_width avoid_revisit
          fuel (depth + 1) newBeam best2 ex.2.1 ex.2.2 depth

/-- The caller-side start state after the visited-set bootstrap that
`beam_search` performs in place on its argument (`beam_search.py` lines
55-59): past the dead check, the caller's object gains the start node in its
visited set; `simulate_travel`/`simulate_visit`, by contrast, clone before
touching anything. -/
def beam_search_startAfter (start_state : BurroState) : BurroState :=
  if start_state.life_years_left ≤ 0 then start_state
  else
    { start_state with
      visited := match start_state.node with
                 | some n => insert n start_state.visited
                 | none => start_state.visited }

/-- Embedding of `beam_search` (`src/planner/beam_search.py`). -/
def beam_search (seedStream : ℕ → ℕ → ℚ) (start_state : BurroState)
    (G : NxGraph) (rules : Rules) (beam_width max_depth : ℕ)
    (avoid_revisit : Bool) : List ℕ × BeamMeta :=
  if start_state.life_years_left ≤ 0 then
    ([], ⟨.start_dead, start_state, 0, none, none⟩)
  else
    let ss := beam_search_startAfter start_state
    let path0 := match ss.node with
                 | some n => [n]
                 | none => []
    let initial : BeamElem := ⟨score_for_sort ss, 0, ss, path0⟩
    beamLoop seedStream G rules beam_width avoid_revisit
      max_depth 1 [initial] (ss, path0, ss.visited.card) 0 start_state.rng 0

/-- A stream constantly zero, standing in for any concrete generator in the
closed test fixtures. -/
def zeroStream : ℕ → ℕ → ℚ := fun _ _ => 0

/-- A truthy rules dict carrying no explicit keys: every lookup falls back
to its default. -/
def rulesDefault : Rules :=
  { truthy := true
    maxFractionOfStayForEating := none
    distanceLyToYearsFactor := none
    useDistanceAsYearsOfLifeLoss := none
    p_illness := none
    p_success := none
    illness_life_loss_range := none
    success_life_gain_range := none
    success_improve_health_p := none
    energyConsumptionPerLyPercent := none
    energyLossPerInvestigationYearPercent := none
    energyGainPerKgByHealthPercent := fun _ => none
    applyEnergyCap100 := none
    eatOnlyIfEnergyBelowPercent := none
    minKgPerEat := none
    grassDuplicateMultiplier := none
    rng_seed := none }

/-- Rules with the 100-point energy cap explicitly disabled. -/
def rulesCapOff : Rules := { rulesDefault with applyEnergyCap100 := some false }

/-- Rules forcing the success outcome with a certain health improvement. -/
def rulesSuccess : Rules :=
  { rulesDefault with p_illness := some 0, p_success := some 1,
                      success_improve_health_p := some 1 }

/-- A dead traveller with ample life and energy left (reachable, e.g., when
an illness degraded NearDeath to Dead or a node effect set the tier). -/
def stateDead : BurroState :=
  { node := some 1, life_years_left := 10, health := .dead, energy_pct := 50,
    grass_kg := 0, age_years := 0, visited := ∅, last_event := none,
    event_log := [], rng := none }

/-- A healthy traveller at 80% energy with some grass aboard. -/
def stateS80 : BurroState :=
  { stateDead with health := .good, energy_pct := 80, grass_kg := 5 }

/-- A hungry traveller: energy below the feeding threshold, 10 kg stock. -/
def stateFeed : BurroState :=
  { stateS80 with energy_pct := 40, grass_kg := 10 }

/-- A traveller with a bound generator at position 0 of the zero stream. -/
def stateRng : BurroState :=
  { stateS80 with energy_pct := 90, rng := some ⟨fun _ => 0, 0⟩ }

/-- A star whose only attribute is a fixed `health_delta` effect restoring
Good health. -/
def starRevive : StarAttrs :=
  { investigation_years := none, time_per_kg_years := none,
    time_to_consume_kg_years := none, invest_energy_per_year_pct := none,
    effects := ⟨none, some .good⟩, hypergiant := false }

/-- A plain hypergiant star. -/
def starHyper : StarAttrs :=
  { starRevive with effects := ⟨none, none⟩, hypergiant := true }

/-- A star with 0.1 research years and 1 year-per-kg feeding time: the
time-derived kg budget of a visit is 0.05 kg. -/
def starFeed : StarAttrs :=
  { starRevive with effects := ⟨none, none⟩,
                    investigation_years := some (1/10),
                    time_per_kg_years := some 1 }

/-- A star with one research year and no other attributes. -/
def starInvest : StarAttrs :=
  { starRevive with effects := ⟨none, none⟩, investigation_years := some 1 }

/-- A one-node NetworkX graph with no edges. -/
def nxSingle : NxGraph := { nodes := [(1, emptyStarAttrs)], edges := [] }

/-- Two isolated nodes: 1 and 2 are present but disconnected. -/
def wgTwo : WGraph := { nodes := [1, 2], edges := [] }

/-- A three-node path graph 1 - 2 - 3 with weights 5 and 7. -/
def wgLine : WGraph := { nodes := [1, 2, 3], edges := [(1, 2, 5), (2, 3, 7)] }

/-- A graph model holding the single unblocked edge (1,2). -/
def gmOne : GraphModel := { edges := [((1, 2), ⟨1, 2, 1, 1, false⟩)] }

/-- Claim C1: the spec promises terminal death — no travel/visit transition
may move a Dead health tier — but `simulate_visit` applies a node's fixed
`health_delta` effect unconditionally (and `_improve_health` does not guard
Dead), so a visit revives a Dead state: visiting a star whose effect sets
health to Good turns a Dead traveller (with life and energy left) into a
Good one. -/
theorem visit_health_delta_revives_dead :
    stateDead.health = Health.dead ∧
      (simulate_visit zeroStream stateDead starRevive rulesDefault
        none).1.health = Health.good ∧
      Health.good ≠ Health.dead := by
  with_unfolding_all decide

/-- Claim C8: for a graph containing node `n`, `shortest_path_dijkstra` with
`source = target = n` returns the single-element path `[n]` with total
weight 0, whose edge list (consecutive pairs) is empty — zero edges
traversed. -/
theorem dijkstra_source_eq_target (g : WGraph) (n : ℕ) (h : n ∈ g.nodes) :
    shortest_path_dijkstra g n n = some ([n], 0) ∧
      ([n].zip ([n] : List ℕ).tail).length = 0 := by
  refine ⟨?_, rfl⟩
  unfold shortest_path_dijkstra
  rw [if_pos h, if_pos h, if_pos rfl]

/-- Claim C8 witness: node 1 of the two-node fixture. -/
theorem dijkstra_source_eq_target_witness :
    shortest_path_dijkstra wgTwo 1 1 = some ([1], 0) ∧
      ([1].zip ([1] : List ℕ).tail).length = 0 :=
  dijkstra_source_eq_target wgTwo 1 (by decide)

/-- Toggling the blocked flag keeps the canonical key of every dictionary
entry, so the lookup distributes over the in-place update. -/
theorem GetEdge_after_update (g : GraphModel) (u v : ℕ) (b : Bool) :
    (GraphModel.mk (g.edges.map fun kv =>
        if kv.1 = edgeKey u v then (kv.1, kv.2.ToggleBlocked b) else kv)
      ).GetEdge u v = (g.GetEdge u v).map fun e => e.ToggleBlocked b := by
  unfold GraphModel.GetEdge
  rw [List.find?_map]
  have hp : ((fun kv : (ℕ × ℕ) × EdgeM => decide (kv.1 = edgeKey u v)) ∘
      fun kv => if kv.1 = edgeKey u v then (kv.1, kv.2.ToggleBlocked b)
                else kv)
      = fun kv : (ℕ × ℕ) × EdgeM => decide (kv.1 = edgeKey u v) := by
    funext kv
    by_cases h : kv.1 = edgeKey u v <;> simp [h]
  rw [hp]
  cases hf : g.edges.find? fun kv => decide (kv.1 = edgeKey u v) with
  | none => simp
  | some kv =>
    have hkey := List.find?_some hf
    simp only [decide_eq_true_eq] at hkey
    simp [hkey]

/-- A successful toggle flips the stored edge in place: the new flag is
reported and the lookup afterwards sees the flipped record. -/
theorem ToggleEdgeBlocked_spec (g : GraphModel) (u v : ℕ) (e : EdgeM)
    (h : g.GetEdge u v = some e) :
    ∃ g1, g.ToggleEdgeBlocked u v = some (!e.blocked, g1) ∧
      g1.GetEdge u v = some (e.ToggleBlocked (!e.blocked)) := by
  refine ⟨⟨g.edges.map fun kv =>
    if kv.1 = edgeKey u v then (kv.1, kv.2.ToggleBlocked (!e.blocked))
    else kv⟩, ?_, ?_⟩
  case _ =>
    unfold GraphModel.ToggleEdgeBlocked
    rw [h]
  case _ =>
    rw [GetEdge_after_update g u v, h]
    rfl

/-- Claim C7: toggling the blocked flag of an existing edge twice restores
both the edge's original blocked value (in fact the whole original edge
record) and its original membership in the filtered blocked-edges-removed
view; each toggle succeeds and reports the new flag. -/
theorem toggle_blocked_involutive (g : GraphModel) (u v : ℕ) (e : EdgeM)
    (h : g.GetEdge u v = some e) :
    ∃ g1 g2,
      g.ToggleEdgeBlocked u v = some (!e.blocked, g1) ∧
      g1.ToggleEdgeBlocked u v = some (e.blocked, g2) ∧
      g2.GetEdge u v = some e ∧
      g2.filteredMem u v = g.filteredMem u v := by
  obtain ⟨g1, hT1, hG1⟩ := ToggleEdgeBlocked_spec g u v e h
  obtain ⟨g2, hT2, hG2⟩ := ToggleEdgeBlocked_spec g1 u v _ hG1
  have hblocked : (e.ToggleBlocked (!e.blocked)).blocked = !e.blocked := rfl
  rw [hblocked, Bool.not_not] at hT2
  have hrestore : (e.ToggleBlocked (!e.blocked)).ToggleBlocked
      (!(e.ToggleBlocked (!e.blocked)).blocked) = e := by
    cases e
    simp [EdgeM.ToggleBlocked]
  rw [hrestore] at hG2
  refine ⟨g1, g2, hT1, hT2, hG2, ?_⟩
  unfold GraphModel.filteredMem
  rw [hG2, h]

/-- Claim C7 witness: the single-edge fixture graph. -/
theorem toggle_blocked_involutive_witness :
    ∃ g1 g2,
      gmOne.ToggleEdgeBlocked 1 2 = some (!(false : Bool), g1) ∧
      g1.ToggleEdgeBlocked 1 2 = some (false, g2) ∧
      g2.GetEdge 1 2 = some ⟨1, 2, 1, 1, false⟩ ∧
      g2.filteredMem 1 2 = gmOne.filteredMem 1 2 :=
  toggle_blocked_involutive gmOne 1 2 ⟨1, 2, 1, 1, false⟩
    (by with_unfolding_all decide)

/-- Folding `optMin` yields nothing exactly when the accumulator and every
candidate are nothing. -/
theorem foldl_optMin_eq_none (l : List (Option (ℚ × List ℕ)))
    (acc : Option (ℚ × List ℕ)) :
    l.foldl optMin acc = none ↔ acc = none ∧ ∀ x ∈ l, x = none := by
  induction l generalizing acc with
  | nil => simp
  | cons x xs ih =>
    rw [List.foldl_cons, ih]
    have hx : optMin acc x = none ↔ acc = none ∧ x = none := by
      cases acc with
      | none => cases x <;> simp [optMin]
      | some a =>
        cases x with
        | none => simp [optMin]
        | some b =>
          simp only [optMin]
          split <;> simp
    rw [hx]
    simp only [List.mem_cons]
    constructor
    · rintro ⟨⟨ha, hxn⟩, hall⟩
      exact ⟨ha, fun y hy => hy.elim (fun h => h ▸ hxn) (hall y)⟩
    · rintro ⟨ha, hall⟩
      exact ⟨⟨ha, hall x (Or.inl rfl)⟩, fun y hy => hall y (Or.inr hy)⟩

/-- A fold of `optMin` that produces a label got it from the accumulator or
from one of the candidates. -/
theorem foldl_optMin_mem (l : List (Option (ℚ × List ℕ)))
    (acc : Option (ℚ × List ℕ)) (x : ℚ × List ℕ)
    (h : l.foldl optMin acc = some x) : some x ∈ l ∨ acc = some x := by
  induction l generalizing acc with
  | nil => exact Or.inr h
  | cons y ys ih =>
    rw [List.foldl_cons] at h
    rcases ih (optMin acc y) h with hmem | hacc
    · exact Or.inl (List.mem_cons_of_mem y hmem)
    · cases acc with
      | none =>
        cases y with
        | none => exact absurd hacc (by simp [optMin])
        | some b =>
          simp only [optMin] at hacc
          exact Or.inl (by simp [hacc])
      | some a =>
        cases y with
        | none => exact Or.inr (by simpa [optMin] using hacc)
        | some b =>
          simp only [optMin] at hacc
          split at hacc
          · exact Or.inl (by simp [hacc])
          · exact Or.inr hacc

/-- After any number of relaxation rounds, a node carries a label exactly
when it lies in the correspondingly iterated reachable set. -/
theorem iterRelax_none_iff (g : WGraph) (s : ℕ) :
    ∀ k n, iterRelax g s k n = none ↔ reachableK g s k n = false := by
  intro k
  induction k with
  | zero =>
    intro n
    simp only [iterRelax, reachableK]
    by_cases h : n = s <;> simp [h]
  | succ k ih =>
    intro n
    simp only [iterRelax, reachableK, relaxStep, pickMin, reachStep]
    rw [foldl_optMin_eq_none, List.forall_mem_cons]
    simp only [true_and, Bool.or_eq_false_iff, List.any_eq_false,
      Bool.not_eq_true]
    constructor
    · rintro ⟨hd, hall⟩
      refine ⟨(ih n).mp hd, fun mw hmw => ?_⟩
      have hx := hall _ (List.mem_map_of_mem _ hmw)
      exact (ih mw.1).mp (Option.map_eq_none'.mp hx)
    · rintro ⟨hd, hall⟩
      refine ⟨(ih n).mpr hd, fun x hx => ?_⟩
      obtain ⟨mw, hmw, rfl⟩ := List.mem_map.mp hx
      rw [Option.map_eq_none']
      exact (ih mw.1).mpr (hall mw hmw)

/-- The source itself always stays in the iterated reachable set. -/
theorem reachableK_self (g : WGraph) (s : ℕ) :
    ∀ k, reachableK g s k s = true := by
  intro k
  induction k with
  | zero => simp [reachableK]
  | succ k ih => simp [reachableK, reachStep, ih]

/-- Every label produced by the relaxation rounds is a genuine weighted path
from the source. -/
theorem iterRelax_validPath (g : WGraph) (s : ℕ) :
    ∀ k n d p, iterRelax g s k n = some (d, p) → ValidPath g s n p d := by
  intro k
  induction k with
  | zero =>
    intro n d p h
    simp only [iterRelax] at h
    split at h
    case isTrue hn =>
      obtain ⟨h1, h2⟩ := Prod.mk.injEq .. |>.mp (Option.some.inj h)
      subst hn
      rw [← h1, ← h2]
      exact ValidPath.base
    case isFalse hn => exact absurd h (by simp)
  | succ k ih =>
    intro n d p h
    simp only [iterRelax, relaxStep, pickMin] at h
    rcases foldl_optMin_mem _ _ _ h with hmem | hacc
    · rcases List.mem_cons.mp hmem with hd | hmap
      · exact ih n d p hd.symm
      · obtain ⟨mw, hmw, heq⟩ := List.mem_map.mp hmap
        obtain ⟨q, hq, hqe⟩ := Option.map_eq_some'.mp heq
        obtain ⟨h1, h2⟩ := Prod.mk.injEq .. |>.mp hqe
        rw [← h1, ← h2]
        exact ValidPath.step (ih mw.1 q.1 q.2 hq) hmw
    · exact absurd hacc (by simp)

/-- Claim C3 (amended): `shortest_path_dijkstra` never raises — it returns an
`Option`; a missing endpoint yields `none`, a disconnected pair (target
outside the computed reachable closure of the source) also yields `none` —
the two failure cases produce the very same value and are therefore NOT
distinguishable to the caller — and for connected endpoints it returns a
genuine weighted path from source to target together with its accumulated
total weight. -/
theorem dijkstra_result_taxonomy (g : WGraph) (s t : ℕ) :
    ((s ∉ g.nodes ∨ t ∉ g.nodes) → shortest_path_dijkstra g s t = none) ∧
    (s ∈ g.nodes → t ∈ g.nodes →
      reachableK g s g.nodes.length t = false →
      shortest_path_dijkstra g s t = none) ∧
    (s ∈ g.nodes → t ∈ g.nodes →
      reachableK g s g.nodes.length t = true →
      ∃ p w, shortest_path_dijkstra g s t = some (p, w) ∧
        ValidPath g s t p w) := by
  refine ⟨?_, ?_, ?_⟩
  case _ =>
    intro h
    unfold shortest_path_dijkstra
    rcases h with h | h
    · rw [if_neg h]
    · by_cases hs : s ∈ g.nodes
      · rw [if_pos hs, if_neg h]
      · rw [if_neg hs]
  case _ =>
    intro hs ht hr
    have hst : s ≠ t := by
      intro he
      rw [he] at hr
      rw [reachableK_self g t g.nodes.length] at hr
      exact Bool.true_eq_false ▸ hr.symm ▸ (by simp)
    unfold shortest_path_dijkstra
    rw [if_pos hs, if_pos ht, if_neg hst,
      (iterRelax_none_iff g s g.nodes.length t).mpr hr]
  case _ =>
    intro hs ht hr
    unfold shortest_path_dijkstra
    rw [if_pos hs, if_pos ht]
    by_cases hst : s = t
    · subst hst
      rw [if_pos rfl]
      exact ⟨[s], 0, rfl, ValidPath.base⟩
    · rw [if_neg hst]
      cases hit : iterRelax g s g.nodes.length t with
      | none =>
        rw [iterRelax_none_iff g s g.nodes.length t, hr] at hit
        exact absurd hit (by simp)
      | some dp =>
        exact ⟨dp.2, dp.1, rfl, iterRelax_validPath g s _ t dp.1 dp.2
          (by rw [hit])⟩

/-- Claim C3 witness: on the path graph 1 - 2 - 3 the connected pair (1, 3)
yields a valid weighted path. -/
theorem dijkstra_result_taxonomy_witness :
    ∃ p w, shortest_path_dijkstra wgLine 1 3 = some (p, w) ∧
      ValidPath wgLine 1 3 p w :=
  (dijkstra_result_taxonomy wgLine 1 3).2.2 (by with_unfolding_all decide)
    (by with_unfolding_all decide) (by with_unfolding_all decide)

/-- Claim C3 counterexample: node 2 is present but disconnected from node 1,
node 3 is absent, yet both queries return the very same `none` — the
no-path case and the missing-node case are not distinguishable, contrary to
the claim's distinct `NoPathFound` / `NodeNotFound` results. -/
theorem dijkstra_failures_indistinguishable :
    (2 ∈ wgTwo.nodes) ∧ (3 ∉ wgTwo.nodes) ∧
      reachableK wgTwo 1 wgTwo.nodes.length 2 = false ∧
      shortest_path_dijkstra wgTwo 1 2 = none ∧
      shortest_path_dijkstra wgTwo 1 2 = shortest_path_dijkstra wgTwo 1 3 := by
  with_unfolding_all decide

/-- A traveller with zero energy but ample life: dead by the spec's
definition, alive by `beam_search`'s start check. -/
def stateE0 : BurroState :=
  { stateDead with health := .excellent, energy_pct := 0 }

/-- A traveller with zero life years left. -/
def stateL0 : BurroState :=
  { stateDead with health := .excellent, life_years_left := 0 }

/-- The beam loop can stop with `no_candidates`, `all_dead` or
`max_depth_reached`, never with `start_dead`. -/
theorem beamLoop_reason_ne_start_dead (seedStream : ℕ → ℕ → ℚ) (G : NxGraph)
    (rules : Rules) (bw : ℕ) (ar : Bool) :
    ∀ fuel depth beam best expansions gRng dr,
      (beamLoop seedStream G rules bw ar fuel depth beam best expansions
        gRng dr).2.reason_stop ≠ StopReason.start_dead := by
  intro fuel
  induction fuel with
  | zero =>
    intro depth beam best expansions gRng dr
    simp [beamLoop]
  | succ fuel ih =>
    intro depth beam best expansions gRng dr
    simp only [beamLoop]
    split
    · simp
    · split
      · simp
      · exact ih _ _ _ _ _ _

/-- Claim C4 (amended): `beam_search` returns the `start_dead` early result
exactly when `lifeYearsLeft ≤ 0` — zero energy or a Dead health tier alone
do not trigger it — and in that case the result is the empty path with a
meta carrying the untouched start state, visited count 0 and no
expansion/depth entries (no expansion is performed). -/
theorem beam_search_start_dead_iff (seedStream : ℕ → ℕ → ℚ)
    (ss : BurroState) (G : NxGraph) (rules : Rules) (bw md : ℕ) (ar : Bool) :
    ((beam_search seedStream ss G rules bw md ar).2.reason_stop =
        StopReason.start_dead ↔ ss.life_years_left ≤ 0) ∧
    (ss.life_years_left ≤ 0 →
      beam_search seedStream ss G rules bw md ar =
        ([], ⟨StopReason.start_dead, ss, 0, none, none⟩)) := by
  by_cases h : ss.life_years_left ≤ 0
  · constructor
    · unfold beam_search
      rw [if_pos h]
      simp [h]
    · intro _
      unfold beam_search
      rw [if_pos h]
  · constructor
    · unfold beam_search
      rw [if_neg h]
      simp only [iff_false_intro h, iff_false]
      exact beamLoop_reason_ne_start_dead seedStream G rules bw ar _ _ _ _ _ _ _
    · intro hc
      exact absurd hc h

/-- Claim C4 amended-theorem witness: a zero-life start on the one-node
graph takes the early exit. -/
theorem beam_search_start_dead_iff_witness :
    beam_search zeroStream stateL0 nxSingle rulesDefault 12 50 true =
      ([], ⟨StopReason.start_dead, stateL0, 0, none, none⟩) :=
  (beam_search_start_dead_iff zeroStream stateL0 nxSingle rulesDefault 12 50
    true).2 (by with_unfolding_all decide)

/-- Claim C4 counterexample: a start state that is dead by the claim's
definition (energy 0, life 10, health Excellent) does NOT get the
`start_dead` early return — `beam_search` proceeds, returns the non-empty
path `[1]` and stops with `no_candidates`. -/
theorem beam_search_energy_dead_start_proceeds :
    stateE0.energy_pct ≤ 0 ∧
      (beam_search zeroStream stateE0 nxSingle rulesDefault 12 50 true).1 =
        [1] ∧
      (beam_search zeroStream stateE0 nxSingle rulesDefault 12 50
        true).2.reason_stop = StopReason.no_candidates := by
  with_unfolding_all decide

/-- With revisit avoidance on, a neighbour already in the visited set is
skipped without touching the accumulator. -/
theorem expandNeighbor_skip (seedStream : ℕ → ℕ → ℚ) (G : NxGraph)
    (rules : Rules) (el : BeamElem) (acc : List BeamElem × ℕ × Option Rng)
    (v : ℕ) (hv : v ∈ el.state.visited) :
    expandNeighbor seedStream G rules true el acc v = acc := by
  unfold expandNeighbor
  rw [if_pos]
  simp [hv]

/-- A beam element whose every neighbour is already visited contributes no
candidate and no expansion. -/
theorem expandElem_skip_all (seedStream : ℕ → ℕ → ℚ) (G : NxGraph)
    (rules : Rules) (el : BeamElem) (acc : List BeamElem × ℕ × Option Rng)
    (h : ∀ v ∈ G.neighbors (el.state.node.getD 0), v ∈ el.state.visited) :
    expandElem seedStream G rules true acc el = acc := by
  unfold expandElem
  have haux : ∀ (l : List ℕ), (∀ v ∈ l, v ∈ el.state.visited) →
      ∀ acc2 : List BeamElem × ℕ × Option Rng,
        l.foldl (expandNeighbor seedStream G rules true el) acc2 = acc2 := by
    intro l
    induction l with
    | nil =>
      intro _ acc2
      simp
    | cons v vs ih =>
      intro hl acc2
      rw [List.foldl_cons,
        expandNeighbor_skip seedStream G rules el acc2 v
          (hl v (List.mem_cons_self v vs))]
      exact ih (fun u hu => hl u (List.mem_cons_of_mem v hu)) acc2
  exact haux _ h acc

/-- Claim C9: `beam_search` mutates the caller's start state in place —
past the dead check it reassigns `visited` on the very object passed in
(adding the start node), so the caller's state value is changed whenever the
start node was not yet recorded; and when the first round produces no
candidate the same uncloned object comes back as the meta's `final_state`
(the returned meta holds exactly the mutated start value).
`simulate_travel`/`simulate_visit`, by contrast, clone before mutating and
leave their argument untouched. -/
theorem beam_search_mutates_start (seedStream : ℕ → ℕ → ℚ)
    (ss : BurroState) (G : NxGraph) (rules : Rules) (bw md : ℕ) (n : ℕ)
    (hlife : ¬ ss.life_years_left ≤ 0)
    (hnode : ss.node = some n)
    (hmd : 1 ≤ md)
    (hnb : ∀ v ∈ G.neighbors n, v ∈ insert n ss.visited) :
    beam_search_startAfter ss = { ss with visited := insert n ss.visited } ∧
    (n ∉ ss.visited → beam_search_startAfter ss ≠ ss) ∧
    beam_search seedStream ss G rules bw md true =
      ([n], ⟨StopReason.no_candidates, beam_search_startAfter ss,
        (insert n ss.visited).card, some 0, some 1⟩) := by
  have hstart : beam_search_startAfter ss =
      { ss with visited := insert n ss.visited } := by
    unfold beam_search_startAfter
    rw [if_neg hlife, hnode]
  refine ⟨hstart, ?_, ?_⟩
  · intro hmem heq
    have hv := congrArg BurroState.visited heq
    rw [hstart] at hv
    exact hmem (Finset.insert_eq_self.mp hv)
  · obtain ⟨m, rfl⟩ : ∃ m, md = m + 1 :=
      ⟨md - 1, (Nat.succ_pred_eq_of_pos hmd).symm⟩
    have hnodeA : ({ ss with visited := insert n ss.visited } :
        BurroState).node = some n := hnode
    have hskip : expandElem seedStream G rules true ([], 0, ss.rng)
        ⟨score_for_sort { ss with visited := insert n ss.visited }, 0,
          { ss with visited := insert n ss.visited }, [n]⟩ =
        ([], 0, ss.rng) := by
      refine expandElem_skip_all seedStream G rules _ _ ?_
      intro v hv
      simp only [hnode, Option.getD_some] at hv
      exact hnb v hv
    unfold beam_search
    rw [if_neg hlife, hstart]
    simp only [hnode] at hskip ⊢
    simp only [beamLoop, List.foldl_cons, List.foldl_nil, hskip]
    simp

/-- Claim C9 witness: a live start on the one-node graph — the caller's
state value changes and the mutated value is returned as `final_state`. -/
theorem beam_search_mutates_start_witness :
    beam_search_startAfter stateS80 =
      { stateS80 with visited := insert 1 stateS80.visited } ∧
    beam_search_startAfter stateS80 ≠ stateS80 ∧
    beam_search zeroStream stateS80 nxSingle rulesDefault 12 50 true =
      ([1], ⟨StopReason.no_candidates, beam_search_startAfter stateS80,
        (insert 1 stateS80.visited).card, some 0, some 1⟩) := by
  have h := beam_search_mutates_start zeroStream stateS80 nxSingle
    rulesDefault 12 50 1 (by with_unfolding_all decide) rfl
    (by decide) (by with_unfolding_all decide)
  exact ⟨h.1, h.2.1 (by with_unfolding_all decide), h.2.2⟩

/-- The energy floor of `apply_energy_delta` applies unconditionally. -/
theorem apply_energy_delta_nonneg (s : BurroState) (d : ℚ) (r : Rules) :
    0 ≤ (s.apply_energy_delta d r).energy_pct := by
  unfold BurroState.apply_energy_delta pymin
  dsimp only
  split_ifs <;> linarith

/-- With a truthy rules dict and the cap not disabled, `apply_energy_delta`
never leaves energy above 100. -/
theorem apply_energy_delta_le_100 (s : BurroState) (d : ℚ) (r : Rules)
    (ht : r.truthy = true) (hc : r.applyEnergyCap100.getD true = true) :
    (s.apply_energy_delta d r).energy_pct ≤ 100 := by
  unfold BurroState.apply_energy_delta pymin
  rw [ht, hc]
  dsimp only
  split_ifs <;> first | linarith | simp_all

/-- The life floor of `apply_life_delta` applies unconditionally. -/
theorem apply_life_delta_nonneg (s : BurroState) (d : ℚ) :
    0 ≤ (s.apply_life_delta d).life_years_left := by
  unfold BurroState.apply_life_delta
  dsimp only
  split_ifs <;> linarith

/-- The energy update touches only the energy field. -/
theorem apply_energy_delta_life (s : BurroState) (d : ℚ) (r : Rules) :
    (s.apply_energy_delta d r).life_years_left = s.life_years_left := rfl

/-- The energy update leaves the stock alone. -/
theorem apply_energy_delta_grass (s : BurroState) (d : ℚ) (r : Rules) :
    (s.apply_energy_delta d r).grass_kg = s.grass_kg := rfl

/-- The life update touches only the life field. -/
theorem apply_life_delta_energy (s : BurroState) (d : ℚ) :
    (s.apply_life_delta d).energy_pct = s.energy_pct := rfl

/-- The life update leaves the stock alone. -/
theorem apply_life_delta_grass (s : BurroState) (d : ℚ) :
    (s.apply_life_delta d).grass_kg = s.grass_kg := rfl

/-- Flooring at zero yields a non-negative value. -/
theorem pymax_zero_nonneg (x : ℚ) : 0 ≤ pymax 0 x := by
  unfold pymax
  split_ifs <;> linarith

/-- Feeding never changes the remaining life years. -/
theorem visitFeeding_life (s : BurroState) (a : StarAttrs) (r : Rules)
    (iy : ℚ) : (visitFeeding s a r iy).1.life_years_left =
      s.life_years_left := by
  unfold visitFeeding
  dsimp only
  split_ifs <;> rfl

/-- Feeding leaves a non-negative stock whenever it started non-negative
(the consumed amount is floored by `max(0.0, ...)`). -/
theorem visitFeeding_grass_nonneg (s : BurroState) (a : StarAttrs)
    (r : Rules) (iy : ℚ) (hg : 0 ≤ s.grass_kg) :
    0 ≤ (visitFeeding s a r iy).1.grass_kg := by
  unfold visitFeeding
  dsimp only
  split_ifs <;>
    first
      | exact hg
      | (rw [apply_energy_delta_grass]; exact pymax_zero_nonneg _)

/-- The research-cost phase does not change life. -/
theorem visitInvestCost_life (s : BurroState) (a : StarAttrs) (r : Rules)
    (iy : ℚ) : (visitInvestCost s a r iy).1.life_years_left =
      s.life_years_left := rfl

/-- The research-cost phase does not change the stock. -/
theorem visitInvestCost_grass (s : BurroState) (a : StarAttrs) (r : Rules)
    (iy : ℚ) : (visitInvestCost s a r iy).1.grass_kg = s.grass_kg := rfl

/-- The research-cost phase leaves non-negative energy. -/
theorem visitInvestCost_energy_nonneg (s : BurroState) (a : StarAttrs)
    (r : Rules) (iy : ℚ) : 0 ≤ (visitInvestCost s a r iy).1.energy_pct :=
  apply_energy_delta_nonneg s _ r

/-- The research-cost phase respects the 100 cap under capped rules. -/
theorem visitInvestCost_energy_le (s : BurroState) (a : StarAttrs)
    (r : Rules) (iy : ℚ) (ht : r.truthy = true)
    (hc : r.applyEnergyCap100.getD true = true) :
    (visitInvestCost s a r iy).1.energy_pct ≤ 100 :=
  apply_energy_delta_le_100 s _ r ht hc

/-- Fixed node effects do not change energy. -/
theorem visitEffects_energy (s : BurroState) (a : StarAttrs)
    (uo : Overrides) : (visitEffects s a uo).1.energy_pct = s.energy_pct := by
  unfold visitEffects
  dsimp only
  split <;> split_ifs <;> rfl

/-- Fixed node effects do not change the stock. -/
theorem visitEffects_grass (s : BurroState) (a : StarAttrs)
    (uo : Overrides) : (visitEffects s a uo).1.grass_kg = s.grass_kg := by
  unfold visitEffects
  dsimp only
  split <;> split_ifs <;> rfl

/-- Fixed node effects keep life non-negative. -/
theorem visitEffects_life_nonneg (s : BurroState) (a : StarAttrs)
    (uo : Overrides) (hl : 0 ≤ s.life_years_left) :
    0 ≤ (visitEffects s a uo).1.life_years_left := by
  unfold visitEffects
  dsimp only
  split <;> split_ifs <;>
    first
      | exact hl
      | exact apply_life_delta_nonneg _ _

set_option maxHeartbeats 1000000 in
/-- The probabilistic outcome never changes energy. -/
theorem visitOutcome_energy (seedStream : ℕ → ℕ → ℚ) (s : BurroState)
    (r : Rules) (iy oe : ℚ) :
    (visitOutcome seedStream s r iy oe).1.energy_pct = s.energy_pct := by
  unfold visitOutcome
  dsimp only
  split_ifs <;> rfl

set_option maxHeartbeats 1000000 in
/-- The probabilistic outcome never changes the stock. -/
theorem visitOutcome_grass (seedStream : ℕ → ℕ → ℚ) (s : BurroState)
    (r : Rules) (iy oe : ℚ) :
    (visitOutcome seedStream s r iy oe).1.grass_kg = s.grass_kg := by
  unfold visitOutcome
  dsimp only
  split_ifs <;> rfl

set_option maxHeartbeats 1000000 in
/-- The probabilistic outcome keeps life non-negative. -/
theorem visitOutcome_life_nonneg (seedStream : ℕ → ℕ → ℚ) (s : BurroState)
    (r : Rules) (iy oe : ℚ) (hl : 0 ≤ s.life_years_left) :
    0 ≤ (visitOutcome seedStream s r iy oe).1.life_years_left := by
  unfold visitOutcome
  dsimp only
  split_ifs <;>
    first
      | exact hl
      | exact apply_life_delta_nonneg _ _

/-- The hypergiant bonus never changes life. -/
theorem visitHypergiant_life (s : BurroState) (a : StarAttrs) (r : Rules) :
    (visitHypergiant s a r).1.life_years_left = s.life_years_left := by
  unfold visitHypergiant
  dsimp only
  split_ifs <;> rfl

/-- The hypergiant bonus keeps energy within [0, 100] under capped rules
whenever it was within the range before. -/
theorem visitHypergiant_energy_bounds (s : BurroState) (a : StarAttrs)
    (r : Rules) (ht : r.truthy = true)
    (hc : r.applyEnergyCap100.getD true = true)
    (he : 0 ≤ s.energy_pct ∧ s.energy_pct ≤ 100) :
    0 ≤ (visitHypergiant s a r).1.energy_pct ∧
      (visitHypergiant s a r).1.energy_pct ≤ 100 := by
  unfold visitHypergiant
  dsimp only
  split_ifs
  · constructor
    · show 0 ≤ (s.apply_energy_delta (s.energy_pct * (1 / 2)) r).energy_pct
      exact apply_energy_delta_nonneg s (s.energy_pct * (1 / 2)) r
    · show (s.apply_energy_delta (s.energy_pct * (1 / 2)) r).energy_pct ≤ 100
      exact apply_energy_delta_le_100 s (s.energy_pct * (1 / 2)) r ht hc
  · exact he

/-- The hypergiant bonus keeps the stock non-negative when the duplication
factor is non-negative. -/
theorem visitHypergiant_grass_nonneg (s : BurroState) (a : StarAttrs)
    (r : Rules) (hdup : 0 ≤ r.grassDuplicateMultiplier.getD 2)
    (hg : 0 ≤ s.grass_kg) : 0 ≤ (visitHypergiant s a r).1.grass_kg := by
  unfold visitHypergiant
  dsimp only
  split_ifs
  · rw [show ((s.apply_energy_delta (s.energy_pct * (1 / 2)) r).grass_kg *
        ((r.grassDuplicateMultiplier.getD 2 : ℤ) : ℚ)) =
        s.grass_kg * ((r.grassDuplicateMultiplier.getD 2 : ℤ) : ℚ) from rfl]
    exact mul_nonneg hg (by exact_mod_cast hdup)
  · exact hg

/-- Marking the node visited changes no numeric field. -/
theorem visitMarkVisited_numeric (s : BurroState) :
    (visitMarkVisited s).energy_pct = s.energy_pct ∧
      (visitMarkVisited s).life_years_left = s.life_years_left ∧
      (visitMarkVisited s).grass_kg = s.grass_kg :=
  ⟨rfl, rfl, rfl⟩

/-- The death check changes no numeric field. -/
theorem visitDeathCheck_numeric (s : BurroState) :
    (visitDeathCheck s).1.energy_pct = s.energy_pct ∧
      (visitDeathCheck s).1.life_years_left = s.life_years_left ∧
      (visitDeathCheck s).1.grass_kg = s.grass_kg := by
  unfold visitDeathCheck
  split_ifs <;> exact ⟨rfl, rfl, rfl⟩

/-- The pre-hypergiant portion of a visit always leaves non-negative energy
(the investigation cost runs through the unconditional energy floor) and,
under capped rules, keeps it at or below 100; life and stock stay
non-negative when they started so. -/
theorem visitPreHyper_numeric (seedStream : ℕ → ℕ → ℚ) (s : BurroState)
    (a : StarAttrs) (r : Rules) (uo : Option Overrides) :
    0 ≤ (visitPreHyper seedStream s a r uo).1.energy_pct ∧
    (r.truthy = true → r.applyEnergyCap100.getD true = true →
      (visitPreHyper seedStream s a r uo).1.energy_pct ≤ 100) ∧
    (0 ≤ s.life_years_left →
      0 ≤ (visitPreHyper seedStream s a r uo).1.life_years_left) ∧
    (0 ≤ s.grass_kg → 0 ≤ (visitPreHyper seedStream s a r uo).1.grass_kg) := by
  unfold visitPreHyper
  dsimp only
  set uo2 := uo.getD ⟨none, ⟨none, none⟩⟩
  set iy := visit_inv_years a uo2
  set s1 := (visitFeeding s.clone a r iy).1
  set s2 := (visitInvestCost s1 a r iy).1
  set s3 := (visitEffects s2 a uo2).1
  refine ⟨?_, ?_, ?_, ?_⟩
  · rw [visitOutcome_energy, visitEffects_energy]
    exact visitInvestCost_energy_nonneg s1 a r iy
  · intro ht hc
    rw [visitOutcome_energy, visitEffects_energy]
    exact visitInvestCost_energy_le s1 a r iy ht hc
  · intro hl
    refine visitOutcome_life_nonneg seedStream s3 r iy _ ?_
    refine visitEffects_life_nonneg s2 a uo2 ?_
    rw [visitInvestCost_life, visitFeeding_life]
    exact hl
  · intro hg
    rw [visitOutcome_grass, visitEffects_grass, visitInvestCost_grass]
    exact visitFeeding_grass_nonneg s.clone a r iy hg

/-- One travel step preserves the numeric contract: life is floored, energy
is clamped, the stock untouched. -/
theorem simulate_travel_inv (s : BurroState) (e : EdgeAttrs) (r : Rules)
    (hr : RulesOK r) (hg : 0 ≤ s.grass_kg) :
    StateInv (simulate_travel s e r).1 := by
  obtain ⟨ht, hc, _⟩ := hr
  unfold simulate_travel
  dsimp only
  split_ifs with h <;>
    exact ⟨apply_energy_delta_nonneg _ _ _,
      apply_energy_delta_le_100 _ _ _ ht hc,
      by rw [apply_energy_delta_life]; exact apply_life_delta_nonneg _ _,
      by rw [apply_energy_delta_grass, apply_life_delta_grass]; exact hg⟩

/-- One visit step preserves the numeric contract under capped rules with a
non-negative duplication factor. -/
theorem simulate_visit_inv (seedStream : ℕ → ℕ → ℚ) (s : BurroState)
    (a : StarAttrs) (r : Rules) (uo : Option Overrides) (hr : RulesOK r)
    (hl : 0 ≤ s.life_years_left) (hg : 0 ≤ s.grass_kg) :
    StateInv (simulate_visit seedStream s a r uo).1 := by
  obtain ⟨ht, hc, hdup⟩ := hr
  have hpre := visitPreHyper_numeric seedStream s a r uo
  unfold simulate_visit
  dsimp only
  set s4 := (visitPreHyper seedStream s a r uo).1 with hs4
  have he5 := visitHypergiant_energy_bounds s4 a r ht hc
    ⟨hpre.1, hpre.2.1 ht hc⟩
  have hl5 : 0 ≤ (visitHypergiant s4 a r).1.life_years_left := by
    rw [visitHypergiant_life]
    exact hpre.2.2.1 hl
  have hg5 := visitHypergiant_grass_nonneg s4 a r hdup (hpre.2.2.2 hg)
  set s5 := (visitHypergiant s4 a r).1 with hs5
  obtain ⟨hde, hdl, hdg⟩ := visitDeathCheck_numeric (visitMarkVisited s5)
  obtain ⟨hme, hml, hmg⟩ := visitMarkVisited_numeric s5
  exact ⟨by rw [hde, hme]; exact he5.1,
    by rw [hde, hme]; exact he5.2,
    by rw [hdl, hml]; exact hl5,
    by rw [hdg, hmg]; exact hg5⟩

/-- Claim C2 (amended): with every step's rules bundle truthy, its 100-point
energy cap not disabled and its grass duplication factor non-negative, every
finite chain of travel/visit transitions (arbitrary edge and node
attributes, arbitrary overrides) preserves 0 ≤ energyPercent ≤ 100,
lifeYearsLeft ≥ 0 and foodKg ≥ 0.  The lower bounds rely only on the
unconditional floors; the upper energy bound needs the cap, and a negative
duplication factor could make the stock negative. -/
theorem runChain_preserves_numeric_contract (seedStream : ℕ → ℕ → ℚ)
    (steps : List SimStep) :
    ∀ s, (∀ st ∈ steps, RulesOK st.rules) → StateInv s →
      StateInv (runChain seedStream steps s) := by
  induction steps with
  | nil =>
    intro s _ hs
    exact hs
  | cons st rest ih =>
    intro s hall hs
    cases st with
    | travel e r =>
      simp only [runChain]
      exact ih _ (fun x hx => hall x (List.mem_cons_of_mem _ hx))
        (simulate_travel_inv s e r (hall _ (List.mem_cons_self _ _))
          hs.2.2.2)
    | visit a r uo =>
      simp only [runChain]
      exact ih _ (fun x hx => hall x (List.mem_cons_of_mem _ hx))
        (simulate_visit_inv seedStream s a r uo
          (hall _ (List.mem_cons_self _ _)) hs.2.2.1 hs.2.2.2)

/-- Claim C2 witness: a travel step followed by a hypergiant visit under the
default (capped) rules keeps the state within the numeric contract. -/
theorem runChain_preserves_numeric_contract_witness :
    StateInv (runChain zeroStream
      [SimStep.travel ⟨some 2, none, none⟩ rulesDefault,
       SimStep.visit starHyper rulesDefault none] stateS80) := by
  refine runChain_preserves_numeric_contract zeroStream _ stateS80 ?_ ?_
  · intro st hst
    rcases List.mem_cons.mp hst with rfl | hst2
    · exact ⟨rfl, rfl, by decide⟩
    · rcases List.mem_cons.mp hst2 with rfl | hst3
      · exact ⟨rfl, rfl, by decide⟩
      · exact absurd hst3 (List.not_mem_nil _)
  · exact ⟨by with_unfolding_all decide, by with_unfolding_all decide,
      by with_unfolding_all decide, by with_unfolding_all decide⟩

/-- Claim C2 counterexample: from a contract-satisfying reachable state, a
single visit to a hypergiant star under a non-empty rules dict that disables
`applyEnergyCap100` drives energy to 120 — the claimed `energyPercent ≤ 100`
fails for arbitrary rules. -/
theorem visit_energy_exceeds_100_when_cap_disabled :
    StateInv stateS80 ∧
      (runChain zeroStream [SimStep.visit starHyper rulesCapOff none]
        stateS80).energy_pct = 120 ∧
      ¬ (runChain zeroStream [SimStep.visit starHyper rulesCapOff none]
        stateS80).energy_pct ≤ 100 := by
  refine ⟨⟨?_, ?_, ?_, ?_⟩, ?_, ?_⟩ <;> with_unfolding_all decide

/-- The kernel-friendly `pymin` is Mathlib's `min` on ℚ. -/
theorem pymin_eq_min (a b : ℚ) : pymin a b = min a b := by
  unfold pymin
  exact (min_def a b).symm

/-- The kernel-friendly `pymax` is Mathlib's `max` on ℚ. -/
theorem pymax_eq_max (a b : ℚ) : pymax a b = max a b := by
  unfold pymax
  rw [max_def]
  rcases le_total a b with h | h
  · rcases lt_or_eq_of_le h with hlt | hEq
    · rw [if_neg (not_le_of_lt hlt), if_pos h]
    · subst hEq
      simp
  · rw [if_pos h]
    rcases lt_or_eq_of_le h with hlt | hEq
    · rw [if_neg (not_le_of_lt hlt)]
    · subst hEq
      simp

/-- Claim C6: on a hypergiant-flagged star (with truthy, capped rules) the
energy after the visit equals the pre-bonus energy increased by 50% of its
own value and clamped at 100 — a relative recharge, not a flat
percentage-point addition — and the stock is multiplied by the configured
duplication factor (default 2).  The pre-bonus state is the visit up to the
hypergiant block (`visitPreHyper`). -/
theorem visit_hypergiant_relative_recharge (seedStream : ℕ → ℕ → ℚ)
    (s : BurroState) (a : StarAttrs) (r : Rules) (uo : Option Overrides)
    (hflag : a.hypergiant = true) (ht : r.truthy = true)
    (hc : r.applyEnergyCap100.getD true = true) :
    (simulate_visit seedStream s a r uo).1.energy_pct =
      min 100 ((visitPreHyper seedStream s a r uo).1.energy_pct +
        (visitPreHyper seedStream s a r uo).1.energy_pct * (1 / 2)) ∧
    (simulate_visit seedStream s a r uo).1.grass_kg =
      (visitPreHyper seedStream s a r uo).1.grass_kg *
        ((r.grassDuplicateMultiplier.getD 2 : ℤ) : ℚ) := by
  have he4 : 0 ≤ (visitPreHyper seedStream s a r uo).1.energy_pct :=
    (visitPreHyper_numeric seedStream s a r uo).1
  unfold simulate_visit
  dsimp only
  set s4 := (visitPreHyper seedStream s a r uo).1 with hs4
  have hhyp : visitHypergiant s4 a r =
      ({ s4.apply_energy_delta (s4.energy_pct * (1 / 2)) r with
          grass_kg := (s4.apply_energy_delta (s4.energy_pct * (1 / 2))
            r).grass_kg * ((r.grassDuplicateMultiplier.getD 2 : ℤ) : ℚ) },
        [SimEvent.hypergiantBonus
          ((s4.apply_energy_delta (s4.energy_pct * (1 / 2)) r).energy_pct -
            s4.energy_pct) (r.grassDuplicateMultiplier.getD 2)]) := by
    unfold visitHypergiant
    rw [if_pos hflag]
  have henergy : (s4.apply_energy_delta (s4.energy_pct * (1 / 2))
      r).energy_pct = min 100 (s4.energy_pct + s4.energy_pct * (1 / 2)) := by
    unfold BurroState.apply_energy_delta
    rw [ht, hc]
    dsimp only
    simp only [Bool.and_self, if_true]
    rw [pymin_eq_min]
    have hnn : 0 ≤ min (100 : ℚ) (s4.energy_pct + s4.energy_pct * (1 / 2)) :=
      le_min (by norm_num) (by linarith)
    rw [if_neg (not_lt_of_le hnn)]
  obtain ⟨hde, hdl, hdg⟩ := visitDeathCheck_numeric
    (visitMarkVisited (visitHypergiant s4 a r).1)
  obtain ⟨hme, hml, hmg⟩ := visitMarkVisited_numeric
    (visitHypergiant s4 a r).1
  constructor
  · rw [hde, hme, hhyp]
    exact henergy
  · rw [hdg, hmg, hhyp]
    rw [apply_energy_delta_grass]

/-- Claim C6 witness: the 80%-energy traveller visiting a hypergiant under
default rules. -/
theorem visit_hypergiant_relative_recharge_witness :
    (simulate_visit zeroStream stateS80 starHyper rulesDefault
      none).1.energy_pct =
      min 100 ((visitPreHyper zeroStream stateS80 starHyper rulesDefault
        none).1.energy_pct +
        (visitPreHyper zeroStream stateS80 starHyper rulesDefault
          none).1.energy_pct * (1 / 2)) ∧
    (simulate_visit zeroStream stateS80 starHyper rulesDefault
      none).1.grass_kg =
      (visitPreHyper zeroStream stateS80 starHyper rulesDefault
        none).1.grass_kg *
        ((rulesDefault.grassDuplicateMultiplier.getD 2 : ℤ) : ℚ) :=
  visit_hypergiant_relative_recharge zeroStream stateS80 starHyper
    rulesDefault none rfl rfl rfl

/-- The feeding eligibility of a visit: energy below the threshold, positive
stock, and a positive kg budget (the budget is unbounded when the per-kg
time is non-positive). -/
def feed_guard (s : BurroState) (a : StarAttrs) (r : Rules) (iy : ℚ) :
    Prop :=
  s.energy_pct < r.eatOnlyIfEnergyBelowPercent.getD 50 ∧ 0 < s.grass_kg ∧
    (0 < feed_time_per_kg a → 0 < feed_kg_budget a r iy)

/-- The kg actually consumed when feeding occurs: the budget raised to
`minKgPerEat` and then limited by the stock (the whole stock when the
per-kg time is non-positive, i.e. the budget is infinite). -/
def feed_consumed (s : BurroState) (a : StarAttrs) (r : Rules) (iy : ℚ) :
    ℚ :=
  if 0 < feed_time_per_kg a then
    min (max (feed_kg_budget a r iy) (r.minKgPerEat.getD (1/10))) s.grass_kg
  else s.grass_kg

/-- Raising below a floor is `max` on ℚ. -/
theorem ite_lt_eq_max (b m : ℚ) : (if b < m then m else b) = max b m := by
  rcases le_or_lt m b with h | h
  · rw [if_neg (not_lt_of_le h), max_eq_left h]
  · rw [if_pos h, max_eq_right (le_of_lt h)]

/-- The research-cost block emits no feeding event. -/
theorem visitInvestCost_no_ate (s : BurroState) (a : StarAttrs) (r : Rules)
    (iy kg g : ℚ) : SimEvent.ate kg g ∉ (visitInvestCost s a r iy).2.1 := by
  unfold visitInvestCost
  simp

/-- The fixed-effects block emits no feeding event. -/
theorem visitEffects_no_ate (s : BurroState) (a : StarAttrs) (uo : Overrides)
    (kg g : ℚ) : SimEvent.ate kg g ∉ (visitEffects s a uo).2 := by
  unfold visitEffects
  dsimp only
  split <;> split_ifs <;> simp

set_option maxHeartbeats 1000000 in
/-- The probabilistic-outcome block emits no feeding event. -/
theorem visitOutcome_no_ate (seedStream : ℕ → ℕ → ℚ) (s : BurroState)
    (r : Rules) (iy oe kg g : ℚ) :
    SimEvent.ate kg g ∉ (visitOutcome seedStream s r iy oe).2 := by
  unfold visitOutcome
  dsimp only
  split_ifs <;> simp

/-- The hypergiant block emits no feeding event. -/
theorem visitHypergiant_no_ate (s : BurroState) (a : StarAttrs) (r : Rules)
    (kg g : ℚ) : SimEvent.ate kg g ∉ (visitHypergiant s a r).2 := by
  unfold visitHypergiant
  dsimp only
  split_ifs <;> simp

/-- The death check emits no feeding event. -/
theorem visitDeathCheck_no_ate (s : BurroState) (kg g : ℚ) :
    SimEvent.ate kg g ∉ (visitDeathCheck s).2 := by
  unfold visitDeathCheck
  split_ifs <;> simp

/-- The eligibility predicate in implication form matches the source's
condition with the folded-infinity conditional. -/
theorem feed_guard_iff (s : BurroState) (a : StarAttrs) (r : Rules)
    (iy : ℚ) :
    feed_guard s a r iy ↔
      (s.energy_pct < r.eatOnlyIfEnergyBelowPercent.getD 50 ∧
        0 < s.grass_kg ∧
        (if 0 < feed_time_per_kg a then 0 < feed_kg_budget a r iy
         else True)) := by
  unfold feed_guard
  by_cases htp : 0 < feed_time_per_kg a <;> simp [htp]

/-- When the visit is not eligible for feeding, the EATING block is a
no-op. -/
theorem visitFeeding_neg (s : BurroState) (a : StarAttrs) (r : Rules)
    (iy : ℚ) (h : ¬ feed_guard s a r iy) :
    visitFeeding s a r iy = (s, []) := by
  have hC : ¬ (s.energy_pct < r.eatOnlyIfEnergyBelowPercent.getD 50 ∧
      0 < s.grass_kg ∧
      (if 0 < feed_time_per_kg a then 0 < feed_kg_budget a r iy
       else True)) :=
    fun hc => h ((feed_guard_iff s a r iy).mpr hc)
  unfold visitFeeding
  dsimp only
  rw [if_neg hC]

/-- When the visit is eligible for feeding, the EATING block consumes
exactly `feed_consumed`: the kg budget raised to `minKgPerEat`, limited by
the available stock. -/
theorem visitFeeding_pos (s : BurroState) (a : StarAttrs) (r : Rules)
    (iy : ℚ) (h : feed_guard s a r iy) :
    ∃ g, (visitFeeding s a r iy).2 =
      [SimEvent.ate (feed_consumed s a r iy) g] := by
  obtain ⟨h1, h2, h3⟩ := h
  have hdes : (if 0 < feed_time_per_kg a then
      pymin (if feed_kg_budget a r iy < r.minKgPerEat.getD (1/10) then
        r.minKgPerEat.getD (1/10) else feed_kg_budget a r iy) s.grass_kg
      else s.grass_kg) = feed_consumed s a r iy := by
    unfold feed_consumed
    by_cases htp : 0 < feed_time_per_kg a
    · rw [if_pos htp, if_pos htp, pymin_eq_min, ite_lt_eq_max]
    · rw [if_neg htp, if_neg htp]
  have hpos : 0 < feed_consumed s a r iy := by
    unfold feed_consumed
    split_ifs with htp
    · refine lt_min ?_ h2
      rcases le_or_lt (r.minKgPerEat.getD (1/10)) (feed_kg_budget a r iy)
        with hle | hlt
      · rw [max_eq_left hle]
        exact h3 htp
      · rw [max_eq_right (le_of_lt hlt)]
        exact lt_of_lt_of_le (h3 htp) (le_of_lt hlt)
    · exact h2
  unfold visitFeeding
  dsimp only
  rw [if_pos ⟨h1, h2, (feed_guard_iff s a r iy).mp ⟨h1, h2, h3⟩ |>.2.2⟩]
  rw [hdes, if_pos hpos]
  exact ⟨_, rfl⟩

/-- Claim C5 (amended): a visit feeds exactly when energy is below the eat
threshold, the stock is positive and the time-derived kg budget is positive;
the kg consumed then equals the budget RAISED to at least `minKgPerEat` and
capped by the available stock — `min(max(kgBudget, minKgPerEat), foodKg)` —
with the whole stock consumed when `feedYearsPerKg ≤ 0` (infinite budget).
No per-visit cap exists, and the source's order of operations makes the
floor take precedence over the budget, not the other way around. -/
theorem visit_feeding_amount (seedStream : ℕ → ℕ → ℚ) (s : BurroState)
    (a : StarAttrs) (r : Rules) (uo : Option Overrides) :
    ((∃ kg g, SimEvent.ate kg g ∈ (simulate_visit seedStream s a r uo).2) ↔
      feed_guard s a r (visit_inv_years a (uo.getD ⟨none, ⟨none, none⟩⟩))) ∧
    (∀ kg g, SimEvent.ate kg g ∈ (simulate_visit seedStream s a r uo).2 →
      kg = feed_consumed s a r
        (visit_inv_years a (uo.getD ⟨none, ⟨none, none⟩⟩))) := by
  set iy := visit_inv_years a (uo.getD ⟨none, ⟨none, none⟩⟩) with hiy
  have hsplit : ∀ kg g,
      SimEvent.ate kg g ∈ (simulate_visit seedStream s a r uo).2 ↔
      SimEvent.ate kg g ∈ (visitFeeding s a r iy).2 := by
    intro kg g
    unfold simulate_visit visitPreHyper
    dsimp only
    simp only [List.mem_append, visitInvestCost_no_ate, visitEffects_no_ate,
      visitOutcome_no_ate, visitHypergiant_no_ate, visitDeathCheck_no_ate,
      or_false, false_or]
    exact Iff.rfl
  constructor
  · constructor
    · rintro ⟨kg, g, hm⟩
      by_cases hg : feed_guard s a r iy
      · exact hg
      · have hmf := (hsplit kg g).mp hm
        rw [visitFeeding_neg s a r iy hg] at hmf
        exact absurd hmf (List.not_mem_nil _)
    · intro hg
      obtain ⟨g, hev⟩ := visitFeeding_pos s a r iy hg
      refine ⟨feed_consumed s a r iy, g, (hsplit _ _).mpr ?_⟩
      rw [hev]
      exact List.mem_singleton_self _
  · intro kg g hm
    have hmf := (hsplit kg g).mp hm
    by_cases hg : feed_guard s a r iy
    · obtain ⟨g2, hev⟩ := visitFeeding_pos s a r iy hg
      rw [hev] at hmf
      have heq := List.mem_singleton.mp hmf
      exact (SimEvent.ate.injEq .. |>.mp heq).1
    · rw [visitFeeding_neg s a r iy hg] at hmf
      exact absurd hmf (List.not_mem_nil _)

/-- Claim C5 witness: a hungry traveller (energy 40 < 50, 10 kg stock) at a
star with a 0.05 kg budget eats, and the consumed amount predicted by the
amended formula is 0.1 kg (the `minKgPerEat` floor). -/
theorem visit_feeding_amount_witness :
    (∃ kg g, SimEvent.ate kg g ∈
      (simulate_visit zeroStream stateFeed starFeed rulesDefault none).2) ∧
    feed_consumed stateFeed starFeed rulesDefault
      (visit_inv_years starFeed ⟨none, ⟨none, none⟩⟩) = 1/10 := by
  constructor
  · exact (visit_feeding_amount zeroStream stateFeed starFeed rulesDefault
      none).1.mpr
      (by refine ⟨?_, ?_, fun _ => ?_⟩ <;> with_unfolding_all decide)
  · with_unfolding_all decide

/-- Claim C5 counterexample: with a 0.05 kg time budget and 10 kg stock the
source consumes 0.1 kg (the `minKgPerEat` floor), which differs from the
claim's `min(kg-budget, foodKg)` = 0.05 — consumption is not the plain
minimum, and when the stock is below the floor the "at least minKgPerEat"
clause fails instead. -/
theorem visit_feeding_not_plain_min :
    (simulate_visit zeroStream stateFeed starFeed rulesDefault
        none).2.head? = some (SimEvent.ate (1/10) (3/10)) ∧
    feed_kg_budget starFeed rulesDefault
      (visit_inv_years starFeed ⟨none, ⟨none, none⟩⟩) = 1/20 ∧
    ¬ ((1 : ℚ)/10 = min (1/20) stateFeed.grass_kg) := by
  refine ⟨?_, ?_, ?_⟩ <;> with_unfolding_all decide

/-- Feeding never touches the generator. -/
theorem visitFeeding_rng (s : BurroState) (a : StarAttrs) (r : Rules)
    (iy : ℚ) : (visitFeeding s a r iy).1.rng = s.rng := by
  unfold visitFeeding
  dsimp only
  split_ifs <;> rfl

/-- The research cost never touches the generator. -/
theorem visitInvestCost_rng (s : BurroState) (a : StarAttrs) (r : Rules)
    (iy : ℚ) : (visitInvestCost s a r iy).1.rng = s.rng := rfl

/-- Fixed effects never touch the generator. -/
theorem visitEffects_rng (s : BurroState) (a : StarAttrs) (uo : Overrides) :
    (visitEffects s a uo).1.rng = s.rng := by
  unfold visitEffects
  dsimp only
  split <;> split_ifs <;> rfl

/-- The hypergiant bonus never touches the generator. -/
theorem visitHypergiant_rng (s : BurroState) (a : StarAttrs) (r : Rules) :
    (visitHypergiant s a r).1.rng = s.rng := by
  unfold visitHypergiant
  dsimp only
  split_ifs <;> rfl

/-- Marking visited never touches the generator. -/
theorem visitMarkVisited_rng (s : BurroState) :
    (visitMarkVisited s).rng = s.rng := rfl

/-- The death check never touches the generator. -/
theorem visitDeathCheck_rng (s : BurroState) :
    (visitDeathCheck s).1.rng = s.rng := by
  unfold visitDeathCheck
  split_ifs <;> rfl

/-- Number of values a visit reads from a generator sitting at position `p`
of stream `f`: one unconditional draw; an illness outcome costs one more
(the uniform life loss); a success outcome costs one more (the uniform life
gain) plus a further one when the improvement probability is positive; a
neutral outcome or an inactive visit costs nothing extra. -/
def visit_draw_count (f : ℕ → ℚ) (p : ℕ) (r : Rules) (iy : ℚ) : ℕ :=
  if 0 < iy ∧ (0 < r.p_illness.getD 0 ∨ 0 < r.p_success.getD 0) then
    if f p < r.p_illness.getD 0 then 2
    else if f p < r.p_illness.getD 0 + r.p_success.getD 0 then
      (if 0 < r.success_improve_health_p.getD 0 then 3 else 2)
    else 1
  else 1

set_option maxHeartbeats 1000000 in
/-- The outcome block advances a bound generator by exactly
`visit_draw_count` positions and writes it back to the state. -/
theorem visitOutcome_rng (seedStream : ℕ → ℕ → ℚ) (s : BurroState)
    (r : Rules) (iy oe : ℚ) (f : ℕ → ℚ) (p : ℕ)
    (h : s.rng = some ⟨f, p⟩) :
    (visitOutcome seedStream s r iy oe).1.rng =
      some ⟨f, p + visit_draw_count f p r iy⟩ := by
  have hget : s.get_rng seedStream r = (⟨f, p⟩, true) := by
    unfold BurroState.get_rng
    rw [h]
  unfold visitOutcome visit_draw_count
  rw [hget]
  simp only [Rng.random, Rng.uniform]
  split_ifs <;> rfl

/-- A positive number of draws is consumed by every visit. -/
theorem visit_draw_count_pos (f : ℕ → ℚ) (p : ℕ) (r : Rules) (iy : ℚ) :
    1 ≤ visit_draw_count f p r iy := by
  unfold visit_draw_count
  split_ifs <;> norm_num

/-- Claim C10 (amended): with a bound generator, every `simulate_visit` call
advances the stream by exactly `visit_draw_count` positions: one draw taken
unconditionally BEFORE the research-years/probability check (so even a
zero-research or unconfigured visit advances the stream); an illness outcome
adds one uniform draw; a success outcome adds one uniform draw plus one more
exactly when the health-improvement probability is positive.  At least one
draw always occurs, so the outcome sequence of a fixed seed depends on the
total number of visit calls. -/
theorem visit_rng_draws (seedStream : ℕ → ℕ → ℚ) (s : BurroState)
    (a : StarAttrs) (r : Rules) (uo : Option Overrides) (f : ℕ → ℚ) (p : ℕ)
    (h : s.rng = some ⟨f, p⟩) :
    (simulate_visit seedStream s a r uo).1.rng =
      some ⟨f, p + visit_draw_count f p r
        (visit_inv_years a (uo.getD ⟨none, ⟨none, none⟩⟩))⟩ ∧
    1 ≤ visit_draw_count f p r
      (visit_inv_years a (uo.getD ⟨none, ⟨none, none⟩⟩)) := by
  refine ⟨?_, visit_draw_count_pos f p r _⟩
  unfold simulate_visit visitPreHyper
  dsimp only
  set iy := visit_inv_years a (uo.getD ⟨none, ⟨none, none⟩⟩) with hiy
  have h3 : (visitEffects (visitInvestCost (visitFeeding s.clone a r iy).1
      a r iy).1 a (uo.getD ⟨none, ⟨none, none⟩⟩)).1.rng = some ⟨f, p⟩ := by
    rw [visitEffects_rng, visitInvestCost_rng, visitFeeding_rng]
    exact h
  rw [visitDeathCheck_rng, visitMarkVisited_rng, visitHypergiant_rng]
  exact visitOutcome_rng seedStream _ r iy _ f p h3

/-- Claim C10 amended-theorem witness: a bound zero-stream generator at
position 0, one research year, certain success with certain improvement —
the generator ends at position 3. -/
theorem visit_rng_draws_witness :
    (simulate_visit zeroStream stateRng starInvest rulesSuccess
      none).1.rng =
      some ⟨(fun _ => 0), 0 + visit_draw_count (fun _ => 0) 0 rulesSuccess
        (visit_inv_years starInvest ⟨none, ⟨none, none⟩⟩)⟩ ∧
    1 ≤ visit_draw_count (fun _ => 0) 0 rulesSuccess
      (visit_inv_years starInvest ⟨none, ⟨none, none⟩⟩) :=
  visit_rng_draws zeroStream stateRng starInvest rulesSuccess none
    (fun _ => 0) 0 rfl

/-- Claim C10 counterexample: under a certain success outcome with certain
health improvement, one visit consumes THREE draws (the unconditional `r`,
the uniform life gain, and the improvement check), not the claimed
one-plus-one: the bound generator ends at position 3, not 2. -/
theorem visit_success_consumes_three_draws :
    ((simulate_visit zeroStream stateRng starInvest rulesSuccess
      none).1.rng.map Rng.pos) = some 3 ∧ (3 : ℕ) ≠ 1 + 1 := by
  refine ⟨?_, by decide⟩
  with_unfolding_all decide
